import Mathlib

/-!
# MSM MP-decision hotplug engine (`arch/arm/mach-msm/msm_mpdecision.c`)

A shallow embedding of the firmware-oracle variant of the MP-decision driver
(the first half of the source file): the per-core sampler callback
`msm_mpd_rq_avg_poll_timer`, its significance filter `ok_to_update_tz`, one
reconciliation pass of the hotplug worker `msm_mpd_do_hotplug`, the decision
worker `msm_mpd_do_update_scm` with `msm_mpd_update_scm` and the slack timer
callback, the setters and sysfs store operations, and `msm_mpd_set_enabled`.
From the threshold-table variant (the second half of the file) only
`get_slowest_cpu` and the down branch of `msm_mpdec_work_thread` are embedded.

Conventions.
* The target is 32-bit ARM: `int`, `long` and `unsigned long` are 32 bits wide.
  A C `int` is an `Int`, an unsigned quantity is a `Nat`; every conversion
  between the two that the C code performs implicitly is written out with
  `to_u32` / `to_s32`.
* `ktime_t` values are nanosecond readings of the monotonic clock, as `Int`
  (the signed 64-bit range is never approached).
* Everything a callback reads from the rest of the kernel (the clock, the
  scheduler averages, the result of `cpu_up`) is an explicit argument.
* Wake-ups and the slack timer are recorded in the state as observable
  effects.
-/

namespace MsmMpd

/-! ## Machine integers -/

/-- Conversion of a C `int` to a 32-bit unsigned type (`uint32_t`,
`unsigned long`): reduction modulo `2^32`. -/
def to_u32 (x : Int) : Nat := (x % 4294967296).toNat

/-- Conversion of a 32-bit unsigned value to a C `int` (two's complement). -/
def to_s32 (n : Nat) : Int :=
  if n % 4294967296 < 2147483648 then ((n % 4294967296 : Nat) : Int)
  else ((n % 4294967296 : Nat) : Int) - 4294967296

/-- Result of a signed 32-bit operation whose mathematical value is `x`
(two's-complement wrap-around, as the kernel is built). -/
def wrap_s32 (x : Int) : Int := to_s32 (to_u32 x)

/-- Modelled from the spec: the header defining `NSEC_PER_MSEC` is not under
src/; one millisecond is `1000000L` nanoseconds, a `long`. -/
def NSEC_PER_MSEC : Nat := 1000000

/-- Modelled from the spec: `hweight32` is a kernel library helper that is not
under src/; it is the number of bits set in a 32-bit word. -/
def hweight32 (w : Nat) : Nat :=
  ((List.range 32).filter (fun i => w.testBit i)).length

/-! ## Data model -/

/-- The values of `enum msm_dcvs_scm_event` that are stored in the pending
request slot `msm_mpd.data.event`. `ZERO` is the literal `0` written by the
decision worker when it takes the request. -/
inductive msm_dcvs_scm_event where
  | ZERO
  | MSM_DCVS_SCM_MPD_QOS_TIMER_EXPIRED
  | MSM_DCVS_SCM_RUNQ_UPDATE
  deriving DecidableEq, Repr

/-- The pending decision request: `struct msm_mpd_scm_data`. -/
structure msm_mpd_scm_data where
  event : msm_dcvs_scm_event
  nr : Int
  deriving DecidableEq, Repr

/-- The latency counters: `struct hp_latency` (all `int`). -/
structure hp_latency where
  hp_up_max_ms : Int
  hp_up_ms : Int
  hp_up_count : Int
  hp_dw_max_ms : Int
  hp_dw_ms : Int
  hp_dw_count : Int
  deriving DecidableEq, Repr

/-- `HPUPDATE_WAITING`: waiting for a cpumask update. -/
def HPUPDATE_WAITING : Int := 0

/-- `HPUPDATE_SCHEDULED`: a new mask has been published. -/
def HPUPDATE_SCHEDULED : Int := 1

/-- `HPUPDATE_IN_PROGRESS`: the hotplug worker is reconciling. -/
def HPUPDATE_IN_PROGRESS : Int := 2

/-- The fields of `struct mpdecision msm_mpd` that the engine reads and
writes (locks, task pointers and sysfs attributes carry no data). -/
structure mpdecision where
  enabled : Nat
  algo_cpu_mask : Nat
  rq_avg_poll_ms : Nat
  iowait_threshold_pct : Nat
  rq_avg_divide : Nat
  next_update : Int
  slack_us : Nat
  data : msm_mpd_scm_data
  hpupdate : Int
  deriving DecidableEq, Repr

/-- The whole engine: `msm_mpd`, the file-level statics `hp_latencies`,
`last_nr`, `num_present_hundreds`, `last_down_time`, the kernel's online map
(`cpu_online_map[cpu]` is `cpu_online(cpu)`; its length is the number of
possible cpus), and the observable effects: whether the slack timer is armed
and how often each wait queue has been woken. -/
structure Engine where
  msm_mpd : mpdecision
  hp_latencies : hp_latency
  last_nr : Nat
  num_present_hundreds : Int
  last_down_time : Int
  cpu_online_map : List Bool
  slack_timer_armed : Bool
  wake_q : Nat
  wake_hpq : Nat
  deriving DecidableEq, Repr

/-- Kernel query `cpu_online(cpu)`. -/
def cpu_online (e : Engine) (cpu : Nat) : Bool := e.cpu_online_map.getD cpu false

/-- Kernel query `num_online_cpus()`. -/
def num_online_cpus (e : Engine) : Nat := e.cpu_online_map.count true

/-! ## Sampler -/

/-- Source `ok_to_update_tz(int nr, int last_nr)`, lines 132-148. Both
quotients are taken in unsigned 32-bit arithmetic because `rq_avg_divide` is a
`uint32_t`; a zero divisor is a division fault (`none`). -/
def ok_to_update_tz (e : Engine) (nr last_nr : Int) : Option Bool :=
  if e.msm_mpd.rq_avg_divide = 0 then none
  else some
    ((to_u32 nr / e.msm_mpd.rq_avg_divide != to_u32 last_nr / e.msm_mpd.rq_avg_divide)
      || ((hweight32 e.msm_mpd.algo_cpu_mask != num_online_cpus e)
          && (e.msm_mpd.hpupdate != HPUPDATE_IN_PROGRESS)))

/-- Lines 171-172 of `msm_mpd_rq_avg_poll_timer`:
`if ((nr_iowait >= msm_mpd.iowait_threshold_pct) && (nr < last_nr)) nr = last_nr;`
Both comparisons are unsigned (`uint32_t`, `unsigned long` operands). -/
def iowait_retain (e : Engine) (nr nr_iowait : Int) : Int :=
  if (decide (to_u32 nr_iowait ≥ e.msm_mpd.iowait_threshold_pct)
      && decide (to_u32 nr < e.last_nr)) then to_s32 e.last_nr else nr

/-- Lines 174-175 of `msm_mpd_rq_avg_poll_timer`:
`if (nr > num_present_hundreds) nr = num_present_hundreds;` (signed). -/
def clamp_present (e : Engine) (nr : Int) : Int :=
  if nr > e.num_present_hundreds then e.num_present_hundreds else nr

/-- The depth that reaches `ok_to_update_tz`: lines 171-175. -/
def filtered_nr (e : Engine) (nr nr_iowait : Int) : Int :=
  clamp_present e (iowait_retain e nr nr_iowait)

/-- What one run of the sampler callback leaves behind: the engine, the
expiry given to `hrtimer_set_expires` and the returned `hrtimer_restart`
(`true` for `HRTIMER_RESTART`). -/
structure poll_result where
  eng : Engine
  expires : Int
  restart : Bool
  deriving DecidableEq, Repr

/-- Source `msm_mpd_rq_avg_poll_timer`, lines 150-192. `curr_time` is
`ktime_get()`, `own_timer` says whether the firing timer is this cpu's own,
`nr` and `nr_iowait` are what `sched_get_nr_running_avg` stores. -/
def msm_mpd_rq_avg_poll_timer (e : Engine) (curr_time : Int) (own_timer : Bool)
    (nr nr_iowait : Int) : Option poll_result :=
  if curr_time - e.msm_mpd.next_update < 0 then
    some ⟨e, e.msm_mpd.next_update, own_timer⟩
  else
    let next : Int :=
      curr_time + (((e.msm_mpd.rq_avg_poll_ms * NSEC_PER_MSEC) % 4294967296 : Nat) : Int)
    let e1 : Engine := { e with msm_mpd := { e.msm_mpd with next_update := next } }
    let nr2 := filtered_nr e1 nr nr_iowait
    match ok_to_update_tz e1 nr2 (to_s32 e1.last_nr) with
    | none => none
    | some true =>
      some ⟨{ e1 with
              slack_timer_armed := false
              msm_mpd := { e1.msm_mpd with
                data := ⟨msm_dcvs_scm_event.MSM_DCVS_SCM_RUNQ_UPDATE, nr2⟩ }
              wake_q := e1.wake_q + 1
              last_nr := to_u32 nr2 },
            next, own_timer⟩
    | some false => some ⟨e1, next, own_timer⟩

/-- Source `msm_mpd_set_rq_avg_poll_ms`, lines 495-503: stores the value and
returns 0. -/
def msm_mpd_set_rq_avg_poll_ms (e : Engine) (val : Nat) : Engine × Int :=
  ({ e with msm_mpd := { e.msm_mpd with rq_avg_poll_ms := val } }, 0)

/-- A sampler firing as seen from outside: the arguments of
`msm_mpd_rq_avg_poll_timer`. -/
structure poll_input where
  curr_time : Int
  own_timer : Bool
  nr : Int
  nr_iowait : Int
  deriving DecidableEq, Repr

/-- A sequence of sampler firings, each starting from the engine the previous
one left. -/
def poll_run : Engine → List poll_input → Option Engine
  | e, [] => some e
  | e, i :: rest =>
    match msm_mpd_rq_avg_poll_timer e i.curr_time i.own_timer i.nr i.nr_iowait with
    | none => none
    | some r => poll_run r.eng rest

/-- The depths forwarded to the decision worker by a sequence of sampler
firings: one entry for each firing that wrote a run-queue update. -/
def poll_forwarded : Engine → List poll_input → List Int
  | _, [] => []
  | e, i :: rest =>
    match msm_mpd_rq_avg_poll_timer e i.curr_time i.own_timer i.nr i.nr_iowait with
    | none => []
    | some r =>
      if r.eng.wake_q = e.wake_q then poll_forwarded r.eng rest
      else r.eng.msm_mpd.data.nr :: poll_forwarded r.eng rest

/-- An engine as `msm_mpd_probe` and module start leave it on a machine with
`ncpu` present cores, all online: defaults poll 1 ms, divisor 25, nothing
pending. -/
def boot_engine (ncpu : Nat) : Engine :=
  { msm_mpd :=
      { enabled := 0, algo_cpu_mask := 0, rq_avg_poll_ms := 1,
        iowait_threshold_pct := 0, rq_avg_divide := 25, next_update := 0,
        slack_us := 0, data := ⟨msm_dcvs_scm_event.ZERO, 0⟩,
        hpupdate := HPUPDATE_WAITING },
    hp_latencies := ⟨0, 0, 0, 0, 0, 0⟩,
    last_nr := 0,
    num_present_hundreds := 100 * (ncpu : Int),
    last_down_time := 0,
    cpu_online_map := List.replicate ncpu true,
    slack_timer_armed := false,
    wake_q := 0,
    wake_hpq := 0 }

/-! ## Hotplug worker -/

/-- What a call of `cpu_up` or `cpu_down` did: whether it returned 0, and the
`time_taken_ms` the caller then measures around it. -/
structure cpu_outcome where
  ok : Bool
  time_taken_ms : Int
  deriving DecidableEq, Repr

/-- Source `bring_up_cpu`, lines 194-219. A successful `cpu_up` leaves the
core online; the notification sent to the firmware afterwards changes nothing
in the engine. -/
def bring_up_cpu (e : Engine) (cpu : Nat) (o : cpu_outcome) : Engine :=
  if o.ok then
    { e with
      cpu_online_map := e.cpu_online_map.set cpu true
      hp_latencies := { e.hp_latencies with
        hp_up_max_ms :=
          if o.time_taken_ms > e.hp_latencies.hp_up_max_ms then o.time_taken_ms
          else e.hp_latencies.hp_up_max_ms
        hp_up_ms := wrap_s32 (e.hp_latencies.hp_up_ms + o.time_taken_ms)
        hp_up_count := wrap_s32 (e.hp_latencies.hp_up_count + 1) } }
  else e

/-- Source `bring_down_cpu`, lines 221-247. `BUG_ON(cpu == 0)` is the result
`none`: the kernel stops the thread before `cpu_down` is called. -/
def bring_down_cpu (e : Engine) (cpu : Nat) (o : cpu_outcome) : Option Engine :=
  if cpu = 0 then none
  else if o.ok then
    some { e with
      cpu_online_map := e.cpu_online_map.set cpu false
      hp_latencies := { e.hp_latencies with
        hp_dw_max_ms :=
          if o.time_taken_ms > e.hp_latencies.hp_dw_max_ms then o.time_taken_ms
          else e.hp_latencies.hp_dw_max_ms
        hp_dw_ms := wrap_s32 (e.hp_latencies.hp_dw_ms + o.time_taken_ms)
        hp_dw_count := wrap_s32 (e.hp_latencies.hp_dw_count + 1) } }
  else some e

/-- A transition attempt: a call of `cpu_up(cpu)` or of `cpu_down(cpu)`. -/
inductive hp_attempt where
  | up (cpu : Nat)
  | down (cpu : Nat)
  deriving DecidableEq, Repr

/-- Whether the attempt is a bring-online attempt. -/
def hp_attempt.is_up : hp_attempt → Bool
  | hp_attempt.up _ => true
  | hp_attempt.down _ => false

/-- Whether the attempt is a bring-offline attempt. -/
def hp_attempt.is_down : hp_attempt → Bool
  | hp_attempt.up _ => false
  | hp_attempt.down _ => true

/-- What the rest of the kernel answers during one reconciliation pass:
`up k` is the outcome of the pass's `k`-th call of `cpu_up` (counted from 0),
`down` the outcome of its call of `cpu_down`, `t_check` the clock read in the
debounce test (line 387) and `t_after` the clock read stored into
`last_down_time` (line 393). -/
structure hp_env where
  up : Nat → cpu_outcome
  down : cpu_outcome
  t_check : Int
  t_after : Int

/-- One run of the loop `for_each_possible_cpu` of lines 378-385 over the
cpus still to visit. `tr` is the list of attempts made so far in the pass. The
Boolean of the result is `true` when the loop left through `goto restart`. -/
def up_scan (env : hp_env) : List Nat → Engine → List hp_attempt →
    Engine × List hp_attempt × Bool
  | [], e, tr => (e, tr, false)
  | cpu :: rest, e, tr =>
    if e.msm_mpd.algo_cpu_mask.testBit cpu && !cpu_online e cpu then
      let e1 := bring_up_cpu e cpu (env.up tr.length)
      if cpu_online e1 cpu then (e1, tr ++ [hp_attempt.up cpu], true)
      else up_scan env rest e1 (tr ++ [hp_attempt.up cpu])
    else up_scan env rest e tr

/-- The up phase, lines 377-385: the scan is repeated from cpu 0 after every
`goto restart`. `restarts` counts the jumps taken so far. The first argument
bounds the number of scans; `none` means the bound was too small. -/
def up_phase (env : hp_env) : Nat → Engine → List hp_attempt → Nat →
    Option (Engine × List hp_attempt × Nat)
  | 0, _, _, _ => none
  | fuel + 1, e, tr, restarts =>
    match up_scan env (List.range e.cpu_online_map.length) e tr with
    | (e1, tr1, true) => up_phase env fuel e1 tr1 (restarts + 1)
    | (e1, tr1, false) => some (e1, tr1, restarts)

/-- The cpu picked by the loop of lines 389-395: the first possible cpu that
is online and whose bit is clear in the target mask. -/
def down_candidate (e : Engine) : List Nat → Option Nat
  | [] => none
  | cpu :: rest =>
    if !(e.msm_mpd.algo_cpu_mask.testBit cpu) && cpu_online e cpu then some cpu
    else down_candidate e rest

/-- What one reconciliation pass leaves behind: the engine, the transition
attempts in the order they were made, the number of `goto restart` jumps, and
whether the pass died in `BUG_ON(cpu == 0)`. -/
structure hp_result where
  eng : Engine
  trace : List hp_attempt
  restarts : Nat
  bug : Bool
  deriving DecidableEq, Repr

/-- Source `msm_mpd_do_hotplug`, lines 370-398: one iteration of the worker
loop after it has been woken, for the target mask found in `algo_cpu_mask`
(the mask is not republished while the pass runs). The up phase is given one
scan more than there are possible cpus. -/
def msm_mpd_do_hotplug (e : Engine) (env : hp_env) : Option hp_result :=
  let e0 : Engine := { e with msm_mpd := { e.msm_mpd with hpupdate := HPUPDATE_IN_PROGRESS } }
  match up_phase env (e0.cpu_online_map.length + 1) e0 [] 0 with
  | none => none
  | some (e1, tr, restarts) =>
    let waiting (x : Engine) : Engine :=
      { x with msm_mpd := { x.msm_mpd with hpupdate := HPUPDATE_WAITING } }
    if env.t_check - e1.last_down_time > 100 * (NSEC_PER_MSEC : Int) then
      match down_candidate e1 (List.range e1.cpu_online_map.length) with
      | some cpu =>
        match bring_down_cpu e1 cpu env.down with
        | none => some ⟨e1, tr, restarts, true⟩
        | some e2 =>
          some ⟨waiting { e2 with last_down_time := env.t_after },
                tr ++ [hp_attempt.down cpu], restarts, false⟩
      | none => some ⟨waiting e1, tr, restarts, false⟩
    else some ⟨waiting e1, tr, restarts, false⟩

/-- One wake-up of the hotplug worker as seen from outside: the target mask
that was published, the online map found when the pass starts (other
subsystems may have changed it since the previous pass) and the answers of
the kernel during the pass. -/
structure hp_cycle where
  mask : Nat
  online : List Bool
  env : hp_env

/-- The clock readings `(t_check, t_after)` around every bring-offline attempt
made by a sequence of passes, in order. A pass that dies in `BUG_ON` ends the
worker. -/
def down_windows : Engine → List hp_cycle → List (Int × Int)
  | _, [] => []
  | e, c :: rest =>
    match msm_mpd_do_hotplug
        { e with
          msm_mpd := { e.msm_mpd with algo_cpu_mask := c.mask }
          cpu_online_map := c.online } c.env with
    | none => []
    | some r =>
      if r.bug then []
      else if r.trace.any hp_attempt.is_down then
        (c.env.t_check, c.env.t_after) :: down_windows r.eng rest
      else down_windows r.eng rest

/-- Consecutive windows are separated by more than the debounce interval:
each window opens more than `100 * NSEC_PER_MSEC` after the previous one
closed. -/
def debounced : List (Int × Int) → Prop
  | [] => True
  | [_] => True
  | w1 :: w2 :: rest =>
    w1.2 + 100 * (NSEC_PER_MSEC : Int) < w2.1 ∧ debounced (w2 :: rest)

/-- An environment in which every `cpu_up` and `cpu_down` succeeds after
`ms` milliseconds. -/
def env_all_ok (ms t_check t_after : Int) : hp_env :=
  { up := fun _ => ⟨true, ms⟩, down := ⟨true, ms⟩, t_check := t_check, t_after := t_after }

/-- An engine as after `boot_engine` with the given target mask published and
the given online map. -/
def engine_with (mask : Nat) (online : List Bool) : Engine :=
  { boot_engine online.length with
    msm_mpd := { (boot_engine online.length).msm_mpd with
      algo_cpu_mask := mask, hpupdate := HPUPDATE_SCHEDULED }
    cpu_online_map := online }

/-- An engine as after `boot_engine 4` (four cores, all online) with the
target mask `0b1111` published and the given I/O-wait threshold, last
reported depth and sampling deadline. -/
def sampler_engine (threshold last_nr : Nat) (next_update : Int) : Engine :=
  { boot_engine 4 with
    msm_mpd := { (boot_engine 4).msm_mpd with
      algo_cpu_mask := 15, iowait_threshold_pct := threshold, next_update := next_update }
    last_nr := last_nr }

/-- Three sampler firings 2 ms apart with raw depths 900, 120 and 450. -/
def three_samples : List poll_input :=
  [⟨5, true, 900, 0⟩, ⟨2000000, true, 120, 0⟩, ⟨4000000, false, 450, 70⟩]

/-- Three sampler firings 2 ms apart with raw depths 30, 60 and 40 and no
I/O wait. -/
def up_and_back_samples : List poll_input :=
  [⟨5, true, 30, 0⟩, ⟨2000000, true, 60, 0⟩, ⟨4000000, true, 40, 0⟩]

/-- Every forwarded depth of the list lies in another `divide` bucket than the
depth reported before it; `last` is the depth reported before the first. The
bucket of a depth is its quotient by `divide` in unsigned arithmetic. -/
def bucket_chain (divide : Nat) : Nat → List Int → Prop
  | _, [] => True
  | last, d :: rest => to_u32 d / divide ≠ last / divide ∧ bucket_chain divide (to_u32 d) rest

/-! ## Decision worker and slack timer -/

/-- Modelled from the spec: the header defining `NSEC_PER_USEC` is not under
src/; one microsecond is `1000L` nanoseconds, a `long`. -/
def NSEC_PER_USEC : Nat := 1000

/-- What the policy oracle answers to one call of `msm_dcvs_scm_event`: the
returned error code (0 for success) and the two output words. -/
structure scm_reply where
  ret : Int
  req_cpu_mask : Nat
  slack_us : Nat
  deriving DecidableEq, Repr

/-- What a call of `msm_mpd_update_scm` leaves behind: the engine, the
returned value, the oracle calls made (event and `param0`), and the relative
expiry in nanoseconds handed to `hrtimer_start` for the slack timer, if it
was started. -/
structure update_result where
  eng : Engine
  ret : Int
  oracle_calls : List (msm_dcvs_scm_event × Nat)
  slack_timer_start : Option Nat
  deriving DecidableEq, Repr

/-- Source `msm_mpd_update_scm`, lines 249-287. `reply` is what the oracle
answers to the call. The product `slack_us * NSEC_PER_USEC` is an
`unsigned long` (32 bits), as is the `nsecs` argument of `ktime_set`;
`hrtimer_start` on the timer just cancelled returns 0. -/
def msm_mpd_update_scm (e : Engine) (event : msm_dcvs_scm_event) (nr : Int)
    (reply : scm_reply) : update_result :=
  let param0 : Nat :=
    if event = msm_dcvs_scm_event.MSM_DCVS_SCM_RUNQ_UPDATE then to_u32 nr else 0
  if reply.ret ≠ 0 then ⟨e, reply.ret, [(event, param0)], none⟩
  else
    let e1 : Engine :=
      { e with
        msm_mpd := { e.msm_mpd with
          slack_us := reply.slack_us
          algo_cpu_mask := reply.req_cpu_mask
          hpupdate := HPUPDATE_SCHEDULED }
        wake_hpq := e.wake_hpq + 1 }
    if reply.slack_us ≠ 0 then
      ⟨{ e1 with slack_timer_armed := true }, 0, [(event, param0)],
        some ((reply.slack_us * NSEC_PER_USEC) % 4294967296)⟩
    else ⟨e1, 0, [(event, param0)], none⟩

/-- Source `msm_mpd_slack_timer`, lines 289-305: the engine afterwards and the
returned `hrtimer_restart` (`true` for `HRTIMER_RESTART`). -/
def msm_mpd_slack_timer (e : Engine) : Engine × Bool :=
  if e.msm_mpd.data.event = msm_dcvs_scm_event.MSM_DCVS_SCM_RUNQ_UPDATE then (e, false)
  else
    ({ e with
       msm_mpd := { e.msm_mpd with
         data := ⟨msm_dcvs_scm_event.MSM_DCVS_SCM_MPD_QOS_TIMER_EXPIRED, 0⟩ }
       wake_q := e.wake_q + 1 }, false)

/-- Source `msm_mpd_do_update_scm`, lines 411-428: one iteration of the
decision worker. While no request is pending the worker stays in
`wait_event` (no oracle call, engine unchanged); otherwise it takes the
request, empties the slot and calls `msm_mpd_update_scm`, whose result is
kept here although the worker ignores the returned value. -/
def msm_mpd_do_update_scm (e : Engine) (reply : scm_reply) : update_result :=
  if e.msm_mpd.data.event = msm_dcvs_scm_event.MSM_DCVS_SCM_MPD_QOS_TIMER_EXPIRED
      ∨ e.msm_mpd.data.event = msm_dcvs_scm_event.MSM_DCVS_SCM_RUNQ_UPDATE then
    msm_mpd_update_scm
      { e with msm_mpd := { e.msm_mpd with data := ⟨msm_dcvs_scm_event.ZERO, 0⟩ } }
      e.msm_mpd.data.event e.msm_mpd.data.nr reply
  else ⟨e, 0, [], none⟩

/-- A sequence of calls of `msm_mpd_update_scm` (event, depth and the
oracle's answer for each), every call starting from the engine the previous
one left. -/
def update_scm_run : Engine → List (msm_dcvs_scm_event × Int × scm_reply) → Engine
  | e, [] => e
  | e, c :: rest => update_scm_run (msm_mpd_update_scm e c.1 c.2.1 c.2.2).eng rest

/-! ## Configuration surface -/

/-- Modelled from the spec: the header defining `EINVAL` is not under src/;
the validation error is the errno value 22. -/
def EINVAL : Int := 22

/-- Source `msm_mpd_set_rq_avg_divide`, lines 515-527. -/
def msm_mpd_set_rq_avg_divide (e : Engine) (val : Nat) : Engine × Int :=
  if val = 0 then (e, -EINVAL)
  else ({ e with msm_mpd := { e.msm_mpd with rq_avg_divide := val } }, 0)

/-- A sequence of calls of `msm_mpd_set_rq_avg_divide`. -/
def set_rq_avg_divide_run : Engine → List Nat → Engine
  | e, [] => e
  | e, val :: rest => set_rq_avg_divide_run (msm_mpd_set_rq_avg_divide e val).1 rest

/-- The six latency attributes declared with `MPD_ALGO_PARAM`, lines 612-617. -/
inductive hp_attr where
  | hp_up_max_ms
  | hp_up_ms
  | hp_up_count
  | hp_dw_max_ms
  | hp_dw_ms
  | hp_dw_count
  deriving DecidableEq, Repr

/-- The counter `_param` an attribute stands for. -/
def hp_attr.get (a : hp_attr) (l : hp_latency) : Int :=
  match a with
  | hp_attr.hp_up_max_ms => l.hp_up_max_ms
  | hp_attr.hp_up_ms => l.hp_up_ms
  | hp_attr.hp_up_count => l.hp_up_count
  | hp_attr.hp_dw_max_ms => l.hp_dw_max_ms
  | hp_attr.hp_dw_ms => l.hp_dw_ms
  | hp_attr.hp_dw_count => l.hp_dw_count

/-- Assignment to the counter `_param` an attribute stands for. -/
def hp_attr.set (a : hp_attr) (l : hp_latency) (v : Int) : hp_latency :=
  match a with
  | hp_attr.hp_up_max_ms => { l with hp_up_max_ms := v }
  | hp_attr.hp_up_ms => { l with hp_up_ms := v }
  | hp_attr.hp_up_count => { l with hp_up_count := v }
  | hp_attr.hp_dw_max_ms => { l with hp_dw_max_ms := v }
  | hp_attr.hp_dw_ms => { l with hp_dw_ms := v }
  | hp_attr.hp_dw_count => { l with hp_dw_count := v }

/-- What a sysfs store operation leaves behind: the engine, the returned
`ssize_t`, and whether `msm_mpd.lock` is still held on return. -/
structure store_result where
  eng : Engine
  ret : Int
  lock_held : Bool
  deriving DecidableEq, Repr

/-- The store operation `msm_mpd_attr_<name>_store` generated by
`MPD_ALGO_PARAM`, lines 535-558, for a latency attribute. `parsed` is what
`kstrtouint(buf, 10, &val)` produced (`none` for an error, else `val`),
`scm_ret` what `msm_mpd_scm_set_algo_params` returns. `_param` is an `int`,
`val` and `old_val` are `uint32_t`. -/
def msm_mpd_attr_hp_store (a : hp_attr) (e : Engine) (parsed : Option Nat)
    (count : Nat) (scm_ret : Int) : store_result :=
  match parsed with
  | none => ⟨e, 0, true⟩
  | some val =>
    let old_val : Nat := to_u32 (a.get e.hp_latencies)
    let e1 : Engine := { e with hp_latencies := a.set e.hp_latencies (to_s32 val) }
    if scm_ret ≠ 0 then
      ⟨{ e1 with hp_latencies := a.set e1.hp_latencies (to_s32 old_val) }, (count : Int), false⟩
    else ⟨e1, (count : Int), false⟩

/-! ## Hotplug worker: republishing and retries -/

/-- The online cores whose bit is clear in the target mask: the cores a down
phase may pick. -/
def stray_online (e : Engine) : List Nat :=
  (List.range e.cpu_online_map.length).filter
    (fun cpu => !(e.msm_mpd.algo_cpu_mask.testBit cpu) && cpu_online e cpu)

/-- The engine after the decision worker has published once more the target
state it already holds (a successful oracle call answering the same mask and
slack). -/
def republish (e : Engine) (event : msm_dcvs_scm_event) (nr : Int) : Engine :=
  (msm_mpd_update_scm e event nr
    ⟨0, e.msm_mpd.algo_cpu_mask, e.msm_mpd.slack_us⟩).eng

/-- An environment in which the first `cpu_up` of the pass fails and every
later call succeeds. -/
def env_first_up_fails (t_check t_after : Int) : hp_env :=
  { up := fun k => ⟨decide (k ≠ 0), 3⟩, down := ⟨true, 3⟩,
    t_check := t_check, t_after := t_after }

/-- In the trace `tr` of a pass, whenever a core is attempted at position `i`
and again at a later position `j`, some bring-online attempt at a position
from `i` up to, but not including, `j` has succeeded. Positions count the
calls of `cpu_up` from 0, as `hp_env.up` does. -/
def retried_after_success (env : hp_env) (tr : List hp_attempt) : Prop :=
  ∀ (i j c : Nat), i < j →
    tr[i]? = some (hp_attempt.up c) → tr[j]? = some (hp_attempt.up c) →
    ∃ k : Nat, i ≤ k ∧ k < j ∧ (env.up k).ok = true

/-- Every possible cpu is online exactly when its bit is set in the target
mask: the target state has been reached. -/
def settled (e : Engine) : Prop :=
  ∀ cpu : Nat, cpu < e.cpu_online_map.length →
    e.msm_mpd.algo_cpu_mask.testBit cpu = cpu_online e cpu

/-- The value is representable as a C `int`. -/
def in_int_range (x : Int) : Prop := -2147483648 ≤ x ∧ x < 2147483648

instance (x : Int) : Decidable (in_int_range x) :=
  inferInstanceAs (Decidable (-2147483648 ≤ x ∧ x < 2147483648))

/-- The possible cpus whose bit is set in the target mask and which are
offline: the cores the up phase still has to bring online. -/
def pending_up (e : Engine) : List Nat :=
  (List.range e.cpu_online_map.length).filter
    (fun cpu => e.msm_mpd.algo_cpu_mask.testBit cpu && !cpu_online e cpu)

/-! ## Configuration surface: stores of `MPD_PARAM` and enabling -/

/-- The store operation `msm_mpd_attr_rq_avg_divide_store` generated by
`MPD_PARAM(rq_avg_divide, msm_mpd.rq_avg_divide)`, lines 566-588 and 600.
`parsed` is what `kstrtouint(buf, 10, &val)` produced (`none` for an error,
else `val`; the text `0` gives `some 0`). -/
def msm_mpd_attr_rq_avg_divide_store (e : Engine) (parsed : Option Nat) (count : Nat) :
    store_result :=
  match parsed with
  | none => ⟨e, 0, true⟩
  | some val =>
    let old_val : Nat := e.msm_mpd.rq_avg_divide
    let e1 : Engine := (msm_mpd_set_rq_avg_divide e val).1
    if (msm_mpd_set_rq_avg_divide e val).2 ≠ 0 then
      ⟨{ e1 with msm_mpd := { e1.msm_mpd with rq_avg_divide := old_val } }, (count : Int), false⟩
    else ⟨e1, (count : Int), false⟩

/-- Modelled from the spec: the header defining `EFAULT` is not under src/;
it is the errno value 14. -/
def EFAULT : Int := 14

/-- The engine together with what `msm_mpd_set_enabled` starts and stops: the
function's static `last_enable`, whether the decision worker (`msm_mpd.task`)
and the hotplug worker (`msm_mpd.hptask`) are running, which per-cpu
`rq_avg_poll_timer`s are armed, and whether the two notifiers are
registered. -/
structure mpd_control where
  eng : Engine
  last_enable : Nat
  task_running : Bool
  hptask_running : Bool
  poll_timer_armed : Nat → Bool
  notifiers_registered : Bool

/-- What the rest of the kernel answers during `msm_mpd_set_enabled`: the
return values of `msm_mpd_scm_set_algo_params` and of the
`MSM_DCVS_SCM_MPD_ENABLE` event, the clock, and whether each `kthread_run`
produced a thread (rather than an error pointer). -/
structure enable_env where
  algo_params_ret : Int
  scm_ret : Int
  now : Int
  task_ok : Bool
  hptask_ok : Bool
  deriving DecidableEq, Repr

/-- Source `msm_mpd_set_enabled`, lines 432-493: the state afterwards and the
returned value. -/
def msm_mpd_set_enabled (c : mpd_control) (enable : Nat) (env : enable_env) :
    mpd_control × Int :=
  let enable : Nat := if enable > 0 then 1 else 0
  if c.last_enable = enable then (c, 0)
  else if enable ≠ 0 ∧ env.algo_params_ret ≠ 0 then (c, env.algo_params_ret)
  else
    let c1 : mpd_control :=
      if env.scm_ret ≠ 0 then c
      else { c with last_enable := enable, eng := { c.eng with last_nr := 0 } }
    if enable ≠ 0 then
      let c2 : mpd_control :=
        { c1 with eng := { c1.eng with msm_mpd := { c1.eng.msm_mpd with
            next_update := env.now +
              (((c1.eng.msm_mpd.rq_avg_poll_ms * NSEC_PER_MSEC) % 4294967296 : Nat) : Int) } } }
      if !env.task_ok then (c2, -EFAULT)
      else if !env.hptask_ok then ({ c2 with task_running := true }, -EFAULT)
      else
        ({ c2 with
           task_running := true
           hptask_running := true
           poll_timer_armed := fun cpu =>
             if cpu_online c2.eng cpu then true else c2.poll_timer_armed cpu
           notifiers_registered := true
           eng := { c2.eng with msm_mpd := { c2.eng.msm_mpd with enabled := 1 } } },
         env.scm_ret)
    else
      ({ c1 with
         poll_timer_armed := fun cpu =>
           if cpu_online c1.eng cpu then false else c1.poll_timer_armed cpu
         hptask_running := false
         task_running := false
         notifiers_registered := false
         eng := { c1.eng with msm_mpd := { c1.eng.msm_mpd with enabled := 0 } } },
       env.scm_ret)

/-- The engine after boot on four cores, not enabled: no thread, no timer. -/
def control_disabled : mpd_control :=
  { eng := boot_engine 4, last_enable := 0, task_running := false,
    hptask_running := false, poll_timer_armed := fun _ => false,
    notifiers_registered := false }

/-- The engine enabled on four cores with mask `0b1111` published and the
slack timer armed: both workers running, every sampler timer armed. -/
def control_enabled : mpd_control :=
  { eng :=
      { boot_engine 4 with
        msm_mpd := { (boot_engine 4).msm_mpd with
          enabled := 1
          algo_cpu_mask := 15
          slack_us := 20000 }
        slack_timer_armed := true },
    last_enable := 1, task_running := true, hptask_running := true,
    poll_timer_armed := fun cpu => decide (cpu < 4),
    notifiers_registered := true }

/-! ## Threshold-table implementation (second half of the source file) -/

/-- The loop of `get_slowest_cpu`, lines 817-832, over the cpu numbers still
to visit; the state is the pair `(cpu, slow_rate)`. `online` is the kernel's
online map and `get_rate i` the clock rate of core `i` (an `unsigned long`);
`get_rate` itself is not under src/. -/
def get_slowest_cpu_loop (online : List Bool) (get_rate : Nat → Nat) :
    List Nat → Nat × Nat → Nat × Nat
  | [], st => st
  | i :: rest, (cpu, slow_rate) =>
    if !(online.getD i false) then get_slowest_cpu_loop online get_rate rest (cpu, slow_rate)
    else
      let rate := get_rate i
      let slow_rate1 := if slow_rate = 0 then rate else slow_rate
      if decide (rate ≤ slow_rate1) && decide (slow_rate1 ≠ 0) then
        if i = 0 then get_slowest_cpu_loop online get_rate rest (cpu, slow_rate1)
        else get_slowest_cpu_loop online get_rate rest (i, rate)
      else get_slowest_cpu_loop online get_rate rest (cpu, slow_rate1)

/-- Source `get_slowest_cpu`, lines 812-835, for `CONFIG_NR_CPUS = nr_cpus`. -/
def get_slowest_cpu (nr_cpus : Nat) (online : List Bool) (get_rate : Nat → Nat) : Nat :=
  (get_slowest_cpu_loop online get_rate (List.range nr_cpus) (0, 0)).1

/-- The `MSM_MPDEC_DOWN` branch of `msm_mpdec_work_thread`, lines 952-968:
the cpu handed to `cpu_down`, if the branch calls it. `data_online` is the
driver's own per-cpu `online` flag (`msm_mpdec_cpudata`), `nr_cpu_ids` equals
`CONFIG_NR_CPUS`. -/
def mpdec_down_branch (nr_cpus : Nat) (online data_online : List Bool)
    (get_rate : Nat → Nat) : Option Nat :=
  let cpu := get_slowest_cpu nr_cpus online get_rate
  if cpu < nr_cpus then
    if data_online.getD cpu false && online.getD cpu false then some cpu else none
  else none

/-- Clock rates of a dual-core part with core 0 at 384 MHz and core 1 at
1512 MHz (in kHz). -/
def rates_core0_slow : Nat → Nat := fun i => if i = 0 then 384000 else 1512000

/-! ## Auxiliary facts -/

theorem set_true_noop (l : List Bool) (i : Nat)
    (h : (l.set i true).getD i false = false) : l.set i true = l := by
  induction l generalizing i with
  | nil => simp
  | cons a t ih =>
    cases i with
    | zero => simp at h
    | succ j =>
      simp at h ⊢
      exact ih j (by simpa using h)

theorem count_false_set_true (l : List Bool) (i : Nat)
    (h : l.getD i false = false) (h2 : (l.set i true).getD i false = true) :
    (l.set i true).count false + 1 = l.count false := by
  induction l generalizing i with
  | nil => simp at h2
  | cons a t ih =>
    cases i with
    | zero =>
      simp at h
      subst h
      simp
    | succ j =>
      simp at h h2 ⊢
      have := ih j (by simpa using h) (by simpa using h2)
      cases a <;> simp [List.count_cons] <;> omega

theorem bring_up_cpu_last_down_time (e : Engine) (cpu : Nat) (o : cpu_outcome) :
    (bring_up_cpu e cpu o).last_down_time = e.last_down_time := by
  unfold bring_up_cpu
  split <;> rfl

theorem bring_up_cpu_msm_mpd (e : Engine) (cpu : Nat) (o : cpu_outcome) :
    (bring_up_cpu e cpu o).msm_mpd = e.msm_mpd := by
  unfold bring_up_cpu
  split <;> rfl

theorem bring_up_cpu_map (e : Engine) (cpu : Nat) (o : cpu_outcome) :
    (bring_up_cpu e cpu o).cpu_online_map = e.cpu_online_map ∨
    (bring_up_cpu e cpu o).cpu_online_map = e.cpu_online_map.set cpu true := by
  unfold bring_up_cpu
  split
  · right; rfl
  · left; rfl

/-- A bring-online step that leaves the core offline did not change the
online map; one that leaves it online removed one offline core. -/
theorem bring_up_cpu_count (e : Engine) (cpu : Nat) (o : cpu_outcome)
    (hoff : cpu_online e cpu = false) :
    (bring_up_cpu e cpu o).cpu_online_map.length = e.cpu_online_map.length ∧
    (cpu_online (bring_up_cpu e cpu o) cpu = false →
      (bring_up_cpu e cpu o).cpu_online_map = e.cpu_online_map) ∧
    (cpu_online (bring_up_cpu e cpu o) cpu = true →
      (bring_up_cpu e cpu o).cpu_online_map.count false + 1
        = e.cpu_online_map.count false) := by
  unfold cpu_online at *
  rcases bring_up_cpu_map e cpu o with h | h
  · rw [h]
    refine ⟨rfl, fun _ => rfl, fun h2 => ?_⟩
    rw [hoff] at h2
    exact absurd h2 (by simp)
  · rw [h]
    refine ⟨by simp, fun h2 => set_true_noop _ _ h2, fun h2 => ?_⟩
    exact count_false_set_true _ _ hoff h2

/-- The scan of the up phase only appends bring-online attempts, never
touches `last_down_time` or the target mask, and never adds an offline core;
when it leaves through `goto restart` one offline core has come online. -/
theorem up_scan_spec (env : hp_env) (cpus : List Nat) :
    ∀ (e : Engine) (tr : List hp_attempt),
      ∃ ups : List hp_attempt,
        (up_scan env cpus e tr).2.1 = tr ++ ups ∧
        (∀ a ∈ ups, a.is_up = true) ∧
        (up_scan env cpus e tr).1.last_down_time = e.last_down_time ∧
        (up_scan env cpus e tr).1.msm_mpd = e.msm_mpd ∧
        (up_scan env cpus e tr).1.cpu_online_map.length = e.cpu_online_map.length ∧
        (up_scan env cpus e tr).1.cpu_online_map.count false
          ≤ e.cpu_online_map.count false ∧
        ((up_scan env cpus e tr).2.2 = true →
          (up_scan env cpus e tr).1.cpu_online_map.count false + 1
            ≤ e.cpu_online_map.count false) := by
  induction cpus with
  | nil =>
    intro e tr
    exact ⟨[], by simp [up_scan], by simp, rfl, rfl, rfl, le_refl _, by simp [up_scan]⟩
  | cons cpu rest ih =>
    intro e tr
    by_cases hc : (e.msm_mpd.algo_cpu_mask.testBit cpu && !cpu_online e cpu) = true
    · have hoff : cpu_online e cpu = false := by
        simp at hc
        exact hc.2
      obtain ⟨hlen, hsame, hcnt⟩ := bring_up_cpu_count e cpu (env.up tr.length) hoff
      by_cases hon : cpu_online (bring_up_cpu e cpu (env.up tr.length)) cpu = true
      · refine ⟨[hp_attempt.up cpu], ?_, ?_, ?_, ?_, ?_, ?_, ?_⟩
        · simp [up_scan, hc, hon]
        · simp [hp_attempt.is_up]
        · simp [up_scan, hc, hon, bring_up_cpu_last_down_time]
        · simp [up_scan, hc, hon, bring_up_cpu_msm_mpd]
        · simp [up_scan, hc, hon, hlen]
        · simp only [up_scan, hc, hon, if_true]
          have := hcnt hon
          omega
        · intro _
          simp only [up_scan, hc, hon, if_true]
          have := hcnt hon
          omega
      · have hon2 : cpu_online (bring_up_cpu e cpu (env.up tr.length)) cpu = false := by
          simpa using hon
        obtain ⟨ups, h1, h2, h3, h4, h5, h6, h7⟩ :=
          ih (bring_up_cpu e cpu (env.up tr.length)) (tr ++ [hp_attempt.up cpu])
        have hmap := hsame hon2
        refine ⟨hp_attempt.up cpu :: ups, ?_, ?_, ?_, ?_, ?_, ?_, ?_⟩
        · simp only [up_scan, hc, hon2, if_true]
          simpa using h1
        · intro a ha
          rcases List.mem_cons.mp ha with rfl | ha
          · rfl
          · exact h2 a ha
        · simp only [up_scan, hc, hon2, if_true]
          simpa [bring_up_cpu_last_down_time] using h3
        · simp only [up_scan, hc, hon2, if_true]
          simpa [bring_up_cpu_msm_mpd] using h4
        · simp only [up_scan, hc, hon2, if_true]
          simpa [hlen] using h5
        · simp only [up_scan, hc, hon2, if_true]
          rw [hmap] at h6
          simpa using h6
        · simp only [up_scan, hc, hon2, if_true]
          rw [hmap] at h7
          simpa using h7
    · obtain ⟨ups, h1, h2, h3, h4, h5, h6, h7⟩ := ih e tr
      refine ⟨ups, ?_, h2, ?_, ?_, ?_, ?_, ?_⟩ <;>
        simp only [up_scan, hc] <;> assumption

/-- With more scans allowed than there are offline cores, the up phase
finishes; it only appends bring-online attempts and leaves `last_down_time`
and the target mask alone. -/
theorem up_phase_spec (env : hp_env) :
    ∀ (fuel : Nat) (e : Engine) (tr : List hp_attempt) (n : Nat),
      e.cpu_online_map.count false < fuel →
      ∃ (e1 : Engine) (ups : List hp_attempt) (n1 : Nat),
        up_phase env fuel e tr n = some (e1, tr ++ ups, n1) ∧
        (∀ a ∈ ups, a.is_up = true) ∧
        e1.last_down_time = e.last_down_time ∧
        e1.msm_mpd = e.msm_mpd := by
  intro fuel
  induction fuel with
  | zero =>
    intro e tr n h
    omega
  | succ fuel ih =>
    intro e tr n h
    obtain ⟨ups, h1, h2, h3, h4, _, h6, h7⟩ :=
      up_scan_spec env (List.range e.cpu_online_map.length) e tr
    rcases hres : up_scan env (List.range e.cpu_online_map.length) e tr with ⟨e1, tr1, b⟩
    rw [hres] at h1 h3 h4 h6 h7
    simp only at h1 h3 h4 h6 h7
    cases b with
    | true =>
      have hlt : e1.cpu_online_map.count false < fuel := by
        have := h7 rfl
        omega
      obtain ⟨e2, ups2, n2, k1, k2, k3, k4⟩ := ih e1 tr1 (n + 1) hlt
      refine ⟨e2, ups ++ ups2, n2, ?_, ?_, ?_, ?_⟩
      · simp only [up_phase, hres]
        rw [k1, h1, List.append_assoc]
      · intro a ha
        rcases List.mem_append.mp ha with ha | ha
        · exact h2 a ha
        · exact k2 a ha
      · rw [k3, h3]
      · rw [k4, h4]
    | false =>
      refine ⟨e1, ups, n, ?_, h2, h3, h4⟩
      simp only [up_phase, hres]
      rw [h1]

theorem any_is_down_of_ups (ups : List hp_attempt) (h : ∀ a ∈ ups, a.is_up = true) :
    ups.any hp_attempt.is_down = false := by
  induction ups with
  | nil => rfl
  | cons a t ih =>
    have ha := h a (List.mem_cons_self a t)
    have ht := ih (fun b hb => h b (List.mem_cons_of_mem a hb))
    cases a with
    | up c => simp [hp_attempt.is_down, ht]
    | down c => simp [hp_attempt.is_up] at ha

/-- Shape of a reconciliation pass: it always finishes; its trace is a run of
bring-online attempts, followed by nothing (then `last_down_time` is kept) or
by exactly one bring-offline attempt (then the debounce test had passed, the
pass did not die, and `last_down_time` is the clock read after the attempt). -/
theorem do_hotplug_shape (e : Engine) (env : hp_env) :
    ∃ (r : hp_result) (ups : List hp_attempt),
      msm_mpd_do_hotplug e env = some r ∧
      (∀ a ∈ ups, a.is_up = true) ∧
      ((r.trace = ups ∧ r.eng.last_down_time = e.last_down_time) ∨
       (∃ cpu : Nat, r.trace = ups ++ [hp_attempt.down cpu] ∧ r.bug = false ∧
          env.t_check - e.last_down_time > 100 * (NSEC_PER_MSEC : Int) ∧
          r.eng.last_down_time = env.t_after)) := by
  obtain ⟨e1, ups, n1, h1, h2, h3, _⟩ :=
    up_phase_spec env (e.cpu_online_map.length + 1)
      { e with msm_mpd := { e.msm_mpd with hpupdate := HPUPDATE_IN_PROGRESS } } [] 0
      (Nat.lt_succ_of_le (List.count_le_length _ _))
  simp only [List.nil_append] at h1
  have h3 : e1.last_down_time = e.last_down_time := h3
  unfold msm_mpd_do_hotplug
  simp only [h1]
  by_cases hdeb : env.t_check - e1.last_down_time > 100 * (NSEC_PER_MSEC : Int)
  · simp only [hdeb, if_true]
    cases hcand : down_candidate e1 (List.range e1.cpu_online_map.length) with
    | none => exact ⟨_, ups, rfl, h2, Or.inl ⟨rfl, h3⟩⟩
    | some cpu =>
      dsimp only
      cases hdown : bring_down_cpu e1 cpu env.down with
      | none => exact ⟨_, ups, rfl, h2, Or.inl ⟨rfl, h3⟩⟩
      | some e2 =>
        dsimp only
        refine ⟨_, ups, rfl, h2, Or.inr ⟨cpu, rfl, rfl, ?_, rfl⟩⟩
        rw [← h3]
        exact hdeb
  · simp only [hdeb, if_false]
    exact ⟨_, ups, rfl, h2, Or.inl ⟨rfl, h3⟩⟩

theorem debounced_cons (w : Int × Int) (l : List (Int × Int)) (hl : debounced l)
    (hw : ∀ w2 ∈ l.head?, w.2 + 100 * (NSEC_PER_MSEC : Int) < w2.1) :
    debounced (w :: l) := by
  cases l with
  | nil => trivial
  | cons w2 rest => exact ⟨hw w2 (by simp), hl⟩

/-- Every window opened by a sequence of passes lies more than the debounce
interval after the `last_down_time` the sequence started from, and the
windows are debounced among themselves. -/
theorem down_windows_spec (cycles : List hp_cycle) :
    ∀ e : Engine,
      debounced (down_windows e cycles) ∧
      ∀ w ∈ (down_windows e cycles).head?,
        e.last_down_time + 100 * (NSEC_PER_MSEC : Int) < w.1 := by
  induction cycles with
  | nil =>
    intro e
    simp [down_windows, debounced]
  | cons c rest ih =>
    intro e
    obtain ⟨r, ups, hr, hups, hcase⟩ :=
      do_hotplug_shape
        { e with
          msm_mpd := { e.msm_mpd with algo_cpu_mask := c.mask }
          cpu_online_map := c.online } c.env
    simp only [down_windows, hr]
    by_cases hbug : r.bug = true
    · simp [hbug, debounced]
    · simp only [hbug]
      obtain ⟨ih1, ih2⟩ := ih r.eng
      rcases hcase with ⟨htr, hldt⟩ | ⟨cpu, htr, _, hdeb, hldt⟩
      · have hnone : r.trace.any hp_attempt.is_down = false := by
          rw [htr]
          exact any_is_down_of_ups ups hups
        simp only [hnone]
        refine ⟨ih1, ?_⟩
        intro w hw
        have := ih2 w hw
        rw [hldt] at this
        exact this
      · have hdown : r.trace.any hp_attempt.is_down = true := by
          rw [htr]
          simp [hp_attempt.is_down]
        simp only [hdown, if_true]
        refine ⟨debounced_cons _ _ ih1 ?_, ?_⟩
        · intro w2 hw2
          have := ih2 w2 hw2
          rw [hldt] at this
          exact this
        · intro w hw
          simp at hw
          subst hw
          simp only at hdeb ⊢
          omega

theorem down_candidate_some (e : Engine) (cpus : List Nat) (cpu : Nat)
    (h : down_candidate e cpus = some cpu) :
    e.msm_mpd.algo_cpu_mask.testBit cpu = false ∧ cpu_online e cpu = true := by
  induction cpus with
  | nil => simp [down_candidate] at h
  | cons c rest ih =>
    unfold down_candidate at h
    split at h
    · rename_i hc
      simp only [Option.some.injEq] at h
      subst h
      simpa using hc
    · exact ih h

/-- When bit 0 of the target mask is set, a reconciliation pass never hands
core 0 to `bring_down_cpu`: it does not die in `BUG_ON`, and its trace holds
no bring-offline attempt on core 0. -/
theorem do_hotplug_keeps_core0 (e : Engine) (env : hp_env) (r : hp_result)
    (hbit : e.msm_mpd.algo_cpu_mask.testBit 0 = true)
    (hr : msm_mpd_do_hotplug e env = some r) :
    r.bug = false ∧ hp_attempt.down 0 ∉ r.trace := by
  obtain ⟨e1, ups, n1, h1, h2, _, h4⟩ :=
    up_phase_spec env (e.cpu_online_map.length + 1)
      { e with msm_mpd := { e.msm_mpd with hpupdate := HPUPDATE_IN_PROGRESS } } [] 0
      (Nat.lt_succ_of_le (List.count_le_length _ _))
  simp only [List.nil_append] at h1
  have hbit1 : e1.msm_mpd.algo_cpu_mask.testBit 0 = true := by
    rw [h4]
    exact hbit
  have hups : hp_attempt.down 0 ∉ ups := by
    intro hmem
    have := h2 _ hmem
    simp [hp_attempt.is_up] at this
  unfold msm_mpd_do_hotplug at hr
  simp only [h1] at hr
  split at hr
  · cases hcand : down_candidate e1 (List.range e1.cpu_online_map.length) with
    | none =>
      rw [hcand] at hr
      simp only [Option.some.injEq] at hr
      subst hr
      exact ⟨rfl, hups⟩
    | some cpu =>
      rw [hcand] at hr
      dsimp only at hr
      have hne : cpu ≠ 0 := by
        intro h0
        have := (down_candidate_some e1 _ cpu hcand).1
        rw [h0, hbit1] at this
        exact absurd this (by simp)
      cases hdown : bring_down_cpu e1 cpu env.down with
      | none =>
        unfold bring_down_cpu at hdown
        rw [if_neg hne] at hdown
        split at hdown <;> cases hdown
      | some e2 =>
        rw [hdown] at hr
        dsimp only at hr
        simp only [Option.some.injEq] at hr
        subst hr
        refine ⟨rfl, ?_⟩
        intro hmem
        rcases List.mem_append.mp hmem with hm | hm
        · exact hups hm
        · simp at hm
          exact hne hm.symm
  · simp only [Option.some.injEq] at hr
    subst hr
    exact ⟨rfl, hups⟩

/-- The published mask `0b0011` with core 1 offline and core 2 online: the
pass brings core 1 online, restarts, then takes core 2 offline. -/
theorem do_hotplug_example :
    (msm_mpd_do_hotplug (engine_with 3 [true, false, true, true])
        (env_all_ok 3 1000000000 1000000005)).map
      (fun r => (r.trace, r.bug, r.restarts, r.eng.cpu_online_map, r.eng.last_down_time))
      = some ([hp_attempt.up 1, hp_attempt.down 2], false, 1,
          [true, true, false, true], 1000000005) := by
  decide

/-- Three passes for the mask `0b0001` from four online cores, 1 s, 1.05 s
and 2 s after boot: the second pass falls inside the debounce interval and
attempts nothing. -/
theorem down_windows_example :
    down_windows (boot_engine 4)
      [⟨1, [true, true, true, true], env_all_ok 3 1000000000 1000000005⟩,
       ⟨1, [true, false, true, true], env_all_ok 3 1050000000 1050000005⟩,
       ⟨1, [true, false, true, true], env_all_ok 3 2000000000 2000000005⟩]
      = [(1000000000, 1000000005), (2000000000, 2000000005)] := by
  decide

/-! ## Hotplug worker: the claims -/

/-- C1 (the code departs from the claim). With the target mask `0b10` (bit 0
clear) published while cores 0 and 1 are online and the debounce interval has
elapsed, the down loop of `msm_mpd_do_hotplug` picks core 0, hands it to
`bring_down_cpu`, and the pass dies in `BUG_ON(cpu == 0)` without having made
any transition attempt. -/
theorem do_hotplug_selects_core0 :
    down_candidate (engine_with 2 [true, true]) (List.range 2) = some 0 ∧
    bring_down_cpu (engine_with 2 [true, true]) 0 ⟨true, 3⟩ = none ∧
    (msm_mpd_do_hotplug (engine_with 2 [true, true])
        (env_all_ok 3 1000000000 1000000005)).map (fun r => (r.trace, r.bug))
      = some ([], true) := by
  decide

/-- C2. For every engine state (target mask, online map) and every pattern of
`cpu_up` / `cpu_down` outcomes, a reconciliation pass of `msm_mpd_do_hotplug`
finishes, and its sequence of transition attempts is a run of bring-online
attempts followed by at most one bring-offline attempt. -/
theorem do_hotplug_ups_then_one_down (e : Engine) (env : hp_env) :
    ∃ (r : hp_result) (ups downs : List hp_attempt),
      msm_mpd_do_hotplug e env = some r ∧
      r.trace = ups ++ downs ∧
      (∀ a ∈ ups, a.is_up = true) ∧
      (∀ a ∈ downs, a.is_down = true) ∧
      downs.length ≤ 1 := by
  obtain ⟨r, ups, hr, hups, hcase⟩ := do_hotplug_shape e env
  rcases hcase with ⟨htr, _⟩ | ⟨cpu, htr, _, _, _⟩
  · exact ⟨r, ups, [], hr, by simpa using htr, hups, by simp, by simp⟩
  · exact ⟨r, ups, [hp_attempt.down cpu], hr, htr, hups,
      by simp [hp_attempt.is_down], by simp⟩

/-- C3. In every sequence of reconciliation passes, whatever masks are
published and whatever the online map is when a pass starts, each
bring-offline attempt begins (clock read of the debounce test) more than
`100 * NSEC_PER_MSEC` nanoseconds after the clock read that followed the
previous attempt; and a single pass attempts an offline only when the time
since `last_down_time` exceeds 100 ms (so is at least 100 ms), after which
`last_down_time` is the clock read taken after the attempt, while a pass
without an offline attempt leaves `last_down_time` unchanged. -/
theorem down_attempts_debounced (e : Engine) (cycles : List hp_cycle) :
    debounced (down_windows e cycles) ∧
    (∀ env : hp_env, ∃ r : hp_result,
      msm_mpd_do_hotplug e env = some r ∧
      (r.trace.any hp_attempt.is_down = true →
        env.t_check - e.last_down_time ≥ 100 * (NSEC_PER_MSEC : Int) ∧
        env.t_check - e.last_down_time > 100 * (NSEC_PER_MSEC : Int) ∧
        r.eng.last_down_time = env.t_after) ∧
      (r.trace.any hp_attempt.is_down = false →
        r.eng.last_down_time = e.last_down_time)) := by
  refine ⟨(down_windows_spec cycles e).1, ?_⟩
  intro env
  obtain ⟨r, ups, hr, hups, hcase⟩ := do_hotplug_shape e env
  refine ⟨r, hr, ?_, ?_⟩
  · intro hany
    rcases hcase with ⟨htr, _⟩ | ⟨cpu, _, _, hdeb, hldt⟩
    · rw [htr, any_is_down_of_ups ups hups] at hany
      exact absurd hany (by simp)
    · exact ⟨le_of_lt hdeb, hdeb, hldt⟩
  · intro hany
    rcases hcase with ⟨_, hldt⟩ | ⟨cpu, htr, _, _, _⟩
    · exact hldt
    · rw [htr] at hany
      simp [hp_attempt.is_down] at hany

/-! ## Sampler: auxiliary facts -/

theorem to_u32_of_nonneg (x : Int) (h0 : 0 ≤ x) (h1 : x < 4294967296) :
    to_u32 x = x.toNat := by
  unfold to_u32
  omega

theorem to_u32_natCast (n : Nat) (h : n < 4294967296) : to_u32 (n : Int) = n := by
  unfold to_u32
  omega

theorem to_s32_of_lt (n : Nat) (h : n < 2147483648) : to_s32 n = (n : Int) := by
  unfold to_s32
  have h1 : n % 4294967296 = n := Nat.mod_eq_of_lt (by omega)
  rw [h1]
  simp [h]

theorem ok_to_update_tz_next_update (e : Engine) (x : Int) (nr last_nr : Int) :
    ok_to_update_tz { e with msm_mpd := { e.msm_mpd with next_update := x } } nr last_nr
      = ok_to_update_tz e nr last_nr := rfl

theorem filtered_nr_next_update (e : Engine) (x : Int) (nr nr_iowait : Int) :
    filtered_nr { e with msm_mpd := { e.msm_mpd with next_update := x } } nr nr_iowait
      = filtered_nr e nr nr_iowait := rfl

/-- The sampler callback when it takes a sample, written over the engine it
started from. -/
theorem poll_timer_sample (e : Engine) (curr_time : Int) (own_timer : Bool)
    (nr nr_iowait : Int) (ht : e.msm_mpd.next_update ≤ curr_time) :
    msm_mpd_rq_avg_poll_timer e curr_time own_timer nr nr_iowait =
      match ok_to_update_tz e (filtered_nr e nr nr_iowait) (to_s32 e.last_nr) with
      | none => none
      | some true =>
        some ⟨{ e with
                slack_timer_armed := false
                msm_mpd := { e.msm_mpd with
                  next_update := curr_time +
                    (((e.msm_mpd.rq_avg_poll_ms * NSEC_PER_MSEC) % 4294967296 : Nat) : Int)
                  data := ⟨msm_dcvs_scm_event.MSM_DCVS_SCM_RUNQ_UPDATE,
                           filtered_nr e nr nr_iowait⟩ }
                wake_q := e.wake_q + 1
                last_nr := to_u32 (filtered_nr e nr nr_iowait) },
              curr_time +
                (((e.msm_mpd.rq_avg_poll_ms * NSEC_PER_MSEC) % 4294967296 : Nat) : Int),
              own_timer⟩
      | some false =>
        some ⟨{ e with msm_mpd := { e.msm_mpd with
                  next_update := curr_time +
                    (((e.msm_mpd.rq_avg_poll_ms * NSEC_PER_MSEC) % 4294967296 : Nat) : Int) } },
              curr_time +
                (((e.msm_mpd.rq_avg_poll_ms * NSEC_PER_MSEC) % 4294967296 : Nat) : Int),
              own_timer⟩ := by
  have h : ¬ (curr_time - e.msm_mpd.next_update < 0) := by omega
  unfold msm_mpd_rq_avg_poll_timer
  simp only [h, if_false]
  rw [ok_to_update_tz_next_update, filtered_nr_next_update]

theorem to_u32_lt (x : Int) : to_u32 x < 4294967296 := by
  unfold to_u32
  omega

theorem to_u32_to_s32 (n : Nat) (h : n < 4294967296) : to_u32 (to_s32 n) = n := by
  unfold to_u32 to_s32
  have h1 : n % 4294967296 = n := Nat.mod_eq_of_lt h
  rw [h1]
  split <;> omega

/-- The three ways a sampler invocation can end: without taking a sample,
with a sample that is not significant, or with a forwarded sample. -/
theorem poll_timer_cases (e : Engine) (curr_time : Int) (own_timer : Bool)
    (nr nr_iowait : Int) (r : poll_result)
    (hr : msm_mpd_rq_avg_poll_timer e curr_time own_timer nr nr_iowait = some r) :
    r.eng = e ∨
    (ok_to_update_tz e (filtered_nr e nr nr_iowait) (to_s32 e.last_nr) = some false ∧
      ∃ x : Int, r.eng = { e with msm_mpd := { e.msm_mpd with next_update := x } }) ∨
    (ok_to_update_tz e (filtered_nr e nr nr_iowait) (to_s32 e.last_nr) = some true ∧
      ∃ x : Int, r.eng =
        { e with
          slack_timer_armed := false
          msm_mpd := { e.msm_mpd with
            next_update := x
            data := ⟨msm_dcvs_scm_event.MSM_DCVS_SCM_RUNQ_UPDATE,
                     filtered_nr e nr nr_iowait⟩ }
          wake_q := e.wake_q + 1
          last_nr := to_u32 (filtered_nr e nr nr_iowait) }) := by
  by_cases ht : curr_time < e.msm_mpd.next_update
  · left
    have h : curr_time - e.msm_mpd.next_update < 0 := by omega
    unfold msm_mpd_rq_avg_poll_timer at hr
    rw [if_pos h] at hr
    cases hr
    rfl
  · right
    rw [poll_timer_sample e curr_time own_timer nr nr_iowait (by omega)] at hr
    rcases hok : ok_to_update_tz e (filtered_nr e nr nr_iowait) (to_s32 e.last_nr)
      with _ | b
    · rw [hok] at hr
      cases hr
    · rw [hok] at hr
      cases b with
      | false =>
        left
        cases hr
        exact ⟨rfl, _, rfl⟩
      | true =>
        right
        cases hr
        exact ⟨rfl, _, rfl⟩

theorem filtered_nr_bounds (e : Engine) (nr nr_iowait : Int)
    (hl : (e.last_nr : Int) ≤ e.num_present_hundreds)
    (h0 : 0 ≤ e.num_present_hundreds) (h1 : e.num_present_hundreds < 2147483648)
    (hnr : 0 ≤ nr) :
    0 ≤ filtered_nr e nr nr_iowait ∧ filtered_nr e nr nr_iowait ≤ e.num_present_hundreds := by
  have hs : to_s32 e.last_nr = (e.last_nr : Int) := to_s32_of_lt _ (by omega)
  unfold filtered_nr clamp_present iowait_retain
  rw [hs]
  split <;> split <;> omega

/-- One sampler invocation with a non-negative raw depth keeps `last_nr`
within `num_present_hundreds`, and a depth it forwards is within that bound
too. -/
theorem poll_timer_bound_step (e : Engine) (curr_time : Int) (own_timer : Bool)
    (nr nr_iowait : Int) (r : poll_result)
    (hl : (e.last_nr : Int) ≤ e.num_present_hundreds)
    (h0 : 0 ≤ e.num_present_hundreds) (h1 : e.num_present_hundreds < 2147483648)
    (hnr : 0 ≤ nr)
    (hr : msm_mpd_rq_avg_poll_timer e curr_time own_timer nr nr_iowait = some r) :
    r.eng.num_present_hundreds = e.num_present_hundreds ∧
    (r.eng.last_nr : Int) ≤ e.num_present_hundreds ∧
    (r.eng.wake_q ≠ e.wake_q → r.eng.msm_mpd.data.nr ≤ e.num_present_hundreds) := by
  obtain ⟨hf0, hf1⟩ := filtered_nr_bounds e nr nr_iowait hl h0 h1 hnr
  rcases poll_timer_cases e curr_time own_timer nr nr_iowait r hr with
    h | ⟨_, x, h⟩ | ⟨_, x, h⟩
  · rw [h]
    exact ⟨rfl, hl, fun hw => absurd rfl hw⟩
  · rw [h]
    exact ⟨rfl, hl, fun hw => absurd rfl hw⟩
  · rw [h]
    refine ⟨rfl, ?_, fun _ => hf1⟩
    show ((to_u32 (filtered_nr e nr nr_iowait) : Nat) : Int) ≤ _
    rw [to_u32_of_nonneg _ hf0 (by omega)]
    omega

theorem poll_bound_run (inputs : List poll_input) :
    ∀ (e e1 : Engine),
      (e.last_nr : Int) ≤ e.num_present_hundreds →
      0 ≤ e.num_present_hundreds → e.num_present_hundreds < 2147483648 →
      (∀ i ∈ inputs, 0 ≤ i.nr) →
      poll_run e inputs = some e1 →
      e1.num_present_hundreds = e.num_present_hundreds ∧
      (e1.last_nr : Int) ≤ e.num_present_hundreds ∧
      ∀ d ∈ poll_forwarded e inputs, d ≤ e.num_present_hundreds := by
  induction inputs with
  | nil =>
    intro e e1 hl _ _ _ hrun
    simp only [poll_run, Option.some.injEq] at hrun
    subst hrun
    exact ⟨rfl, hl, by simp [poll_forwarded]⟩
  | cons i rest ih =>
    intro e e1 hl h0 h1 hin hrun
    rcases hr : msm_mpd_rq_avg_poll_timer e i.curr_time i.own_timer i.nr i.nr_iowait
      with _ | r
    · simp [poll_run, hr] at hrun
    · simp only [poll_run, hr] at hrun
      obtain ⟨k1, k2, k3⟩ :=
        poll_timer_bound_step e i.curr_time i.own_timer i.nr i.nr_iowait r hl h0 h1
          (hin i (List.mem_cons_self i rest)) hr
      obtain ⟨m1, m2, m3⟩ := ih r.eng e1 (by rw [k1]; exact k2) (by rw [k1]; exact h0)
        (by rw [k1]; exact h1) (fun j hj => hin j (List.mem_cons_of_mem i hj)) hrun
      rw [k1] at m1 m2 m3
      refine ⟨m1, m2, ?_⟩
      intro d hd
      simp only [poll_forwarded, hr] at hd
      by_cases hw : r.eng.wake_q = e.wake_q
      · rw [if_pos hw] at hd
        exact m3 d hd
      · rw [if_neg hw] at hd
        rcases List.mem_cons.mp hd with rfl | hd
        · exact k3 hw
        · exact m3 d hd

theorem poll_bucket_chain (inputs : List poll_input) :
    ∀ e : Engine,
      e.last_nr < 4294967296 →
      hweight32 e.msm_mpd.algo_cpu_mask = num_online_cpus e →
      bucket_chain e.msm_mpd.rq_avg_divide e.last_nr (poll_forwarded e inputs) := by
  induction inputs with
  | nil =>
    intro e _ _
    simp [poll_forwarded, bucket_chain]
  | cons i rest ih =>
    intro e hl hm
    rcases hr : msm_mpd_rq_avg_poll_timer e i.curr_time i.own_timer i.nr i.nr_iowait
      with _ | r
    · simp [poll_forwarded, hr, bucket_chain]
    · simp only [poll_forwarded, hr]
      rcases poll_timer_cases e i.curr_time i.own_timer i.nr i.nr_iowait r hr with
        h | ⟨_, x, h⟩ | ⟨hok, x, h⟩
      · have hw : r.eng.wake_q = e.wake_q := by rw [h]
        rw [if_pos hw]
        have := ih r.eng (by rw [h]; exact hl) (by rw [h]; exact hm)
        rw [h] at this ⊢
        exact this
      · have hw : r.eng.wake_q = e.wake_q := by rw [h]
        rw [if_pos hw]
        have := ih r.eng (by rw [h]; exact hl) (by rw [h]; exact hm)
        rw [h] at this ⊢
        exact this
      · have hw : ¬ r.eng.wake_q = e.wake_q := by
          rw [h]
          show ¬ e.wake_q + 1 = e.wake_q
          omega
        rw [if_neg hw]
        have hchain := ih r.eng (by rw [h]; exact to_u32_lt _) (by rw [h]; exact hm)
        rw [h] at hchain ⊢
        refine ⟨?_, hchain⟩
        show to_u32 (filtered_nr e i.nr i.nr_iowait) / e.msm_mpd.rq_avg_divide
          ≠ e.last_nr / e.msm_mpd.rq_avg_divide
        unfold ok_to_update_tz at hok
        split at hok
        · cases hok
        · rw [to_u32_to_s32 _ hl] at hok
          simp only [Option.some.injEq, hm, bne_self_eq_false, Bool.false_and,
            Bool.or_false, bne_iff_ne, ne_eq] at hok
          exact hok

/-! ## Sampler: the claims -/

/-- C4. For non-negative depths `nr` and `last_nr` (C `int`s) and a non-zero
divisor, `ok_to_update_tz` returns true exactly when the two depths fall in
different `rq_avg_divide` buckets, or the number of bits set in the target
mask differs from the number of online cores while `hpupdate` is not
`HPUPDATE_IN_PROGRESS`. With divisor 25: depth 5 after 0 with matching counts
is not significant, depth 30 after 5 is significant. -/
theorem ok_to_update_tz_iff (e : Engine) (nr last_nr : Int)
    (hnr : 0 ≤ nr) (hnr2 : nr < 2147483648)
    (hl : 0 ≤ last_nr) (hl2 : last_nr < 2147483648)
    (hd : e.msm_mpd.rq_avg_divide ≠ 0) :
    ok_to_update_tz e nr last_nr =
      some (decide
        (nr / (e.msm_mpd.rq_avg_divide : Int) ≠ last_nr / (e.msm_mpd.rq_avg_divide : Int)
          ∨ (hweight32 e.msm_mpd.algo_cpu_mask ≠ num_online_cpus e
              ∧ e.msm_mpd.hpupdate ≠ HPUPDATE_IN_PROGRESS))) ∧
    (∀ e0 : Engine, e0.msm_mpd.rq_avg_divide = 25 →
        hweight32 e0.msm_mpd.algo_cpu_mask = num_online_cpus e0 →
        ok_to_update_tz e0 5 0 = some false) ∧
    (∀ e0 : Engine, e0.msm_mpd.rq_avg_divide = 25 →
        ok_to_update_tz e0 30 5 = some true) := by
  refine ⟨?_, ?_, ?_⟩
  · lift nr to Nat using hnr
    lift last_nr to Nat using hl
    have h1 : to_u32 (nr : Int) = nr := to_u32_natCast nr (by omega)
    have h2 : to_u32 (last_nr : Int) = last_nr := to_u32_natCast last_nr (by omega)
    unfold ok_to_update_tz
    rw [if_neg hd, h1, h2]
    congr 1
    rw [Bool.eq_iff_iff]
    simp only [Bool.or_eq_true, Bool.and_eq_true, bne_iff_ne, decide_eq_true_eq, ne_eq]
    rw [← Int.ofNat_ediv, ← Int.ofNat_ediv, Int.ofNat_inj]
  · intro e0 h25 hm
    have h1 : to_u32 5 = 5 := by decide
    have h2 : to_u32 0 = 0 := by decide
    unfold ok_to_update_tz
    simp [h25, hm, h1, h2]
  · intro e0 h25
    have h1 : to_u32 30 = 30 := by decide
    have h2 : to_u32 5 = 5 := by decide
    unfold ok_to_update_tz
    simp [h25, h1, h2]

/-- Witness for C4: the engine after boot with four cores and mask `0b1111`. -/
theorem ok_to_update_tz_iff_witness :
    ok_to_update_tz (engine_with 15 [true, true, true, true]) 30 5 =
      some (decide
        ((30 : Int) / ((engine_with 15 [true, true, true, true]).msm_mpd.rq_avg_divide : Int)
            ≠ 5 / ((engine_with 15 [true, true, true, true]).msm_mpd.rq_avg_divide : Int)
          ∨ (hweight32 (engine_with 15 [true, true, true, true]).msm_mpd.algo_cpu_mask
                ≠ num_online_cpus (engine_with 15 [true, true, true, true])
              ∧ (engine_with 15 [true, true, true, true]).msm_mpd.hpupdate
                ≠ HPUPDATE_IN_PROGRESS))) :=
  (ok_to_update_tz_iff (engine_with 15 [true, true, true, true]) 30 5
    (by decide) (by decide) (by decide) (by decide) (by decide)).1

/-- C5. A sampler invocation that takes a sample (the divisor being non-zero)
returns; if the filtered depth is significant, the pending request afterwards
is a run-queue update carrying exactly the filtered depth, whatever was
pending before, and `last_nr` is that depth (as an `unsigned long`); if it is
not significant, the pending request and `last_nr` are unchanged. -/
theorem poll_timer_sample_effect (e : Engine) (curr_time : Int) (own_timer : Bool)
    (nr nr_iowait : Int)
    (hd : e.msm_mpd.rq_avg_divide ≠ 0) (ht : e.msm_mpd.next_update ≤ curr_time) :
    ∃ (r : poll_result) (sig : Bool),
      msm_mpd_rq_avg_poll_timer e curr_time own_timer nr nr_iowait = some r ∧
      ok_to_update_tz e (filtered_nr e nr nr_iowait) (to_s32 e.last_nr) = some sig ∧
      (sig = true →
        r.eng.msm_mpd.data =
          ⟨msm_dcvs_scm_event.MSM_DCVS_SCM_RUNQ_UPDATE, filtered_nr e nr nr_iowait⟩ ∧
        r.eng.last_nr = to_u32 (filtered_nr e nr nr_iowait) ∧
        (0 ≤ filtered_nr e nr nr_iowait → filtered_nr e nr nr_iowait < 4294967296 →
          (r.eng.last_nr : Int) = filtered_nr e nr nr_iowait)) ∧
      (sig = false →
        r.eng.msm_mpd.data = e.msm_mpd.data ∧ r.eng.last_nr = e.last_nr) := by
  rw [poll_timer_sample e curr_time own_timer nr nr_iowait ht]
  rcases hok : ok_to_update_tz e (filtered_nr e nr nr_iowait) (to_s32 e.last_nr)
    with _ | b
  · unfold ok_to_update_tz at hok
    rw [if_neg hd] at hok
    exact absurd hok (by simp)
  · cases b with
    | true =>
      refine ⟨_, true, rfl, rfl, fun _ => ⟨rfl, rfl, ?_⟩, fun h => absurd h (by simp)⟩
      intro h0 h1
      show ((to_u32 (filtered_nr e nr nr_iowait) : Nat) : Int) = _
      rw [to_u32_of_nonneg _ h0 h1]
      omega
    | false =>
      exact ⟨_, false, rfl, rfl, fun h => absurd h (by simp), fun _ => ⟨rfl, rfl⟩⟩

/-- Witness for C5: after boot with four cores and no mask published yet, a
sample of depth 130 taken at time 5 is forwarded. -/
theorem poll_timer_sample_effect_witness :
    ∃ (r : poll_result) (sig : Bool),
      msm_mpd_rq_avg_poll_timer (boot_engine 4) 5 true 130 0 = some r ∧
      ok_to_update_tz (boot_engine 4) (filtered_nr (boot_engine 4) 130 0)
        (to_s32 (boot_engine 4).last_nr) = some sig ∧
      (sig = true →
        r.eng.msm_mpd.data =
          ⟨msm_dcvs_scm_event.MSM_DCVS_SCM_RUNQ_UPDATE, filtered_nr (boot_engine 4) 130 0⟩ ∧
        r.eng.last_nr = to_u32 (filtered_nr (boot_engine 4) 130 0) ∧
        (0 ≤ filtered_nr (boot_engine 4) 130 0 →
          filtered_nr (boot_engine 4) 130 0 < 4294967296 →
          (r.eng.last_nr : Int) = filtered_nr (boot_engine 4) 130 0)) ∧
      (sig = false →
        r.eng.msm_mpd.data = (boot_engine 4).msm_mpd.data ∧
        r.eng.last_nr = (boot_engine 4).last_nr) :=
  poll_timer_sample_effect (boot_engine 4) 5 true 130 0 (by decide) (by decide)

/-- C7. A sampler invocation whose current time precedes `next_update`
returns with the whole engine unchanged (so `next_update`, `last_nr`, the
pending request, the slack timer and the wake-up count of the decision worker
are all as before); the firing timer's expiry is set to that `next_update`. -/
theorem poll_timer_early_noop (e : Engine) (curr_time : Int) (own_timer : Bool)
    (nr nr_iowait : Int) (ht : curr_time < e.msm_mpd.next_update) :
    msm_mpd_rq_avg_poll_timer e curr_time own_timer nr nr_iowait
      = some ⟨e, e.msm_mpd.next_update, own_timer⟩ := by
  have h : curr_time - e.msm_mpd.next_update < 0 := by omega
  unfold msm_mpd_rq_avg_poll_timer
  rw [if_pos h]

/-- Witness for C7: a timer firing at time 40 while `next_update` is 1000. -/
theorem poll_timer_early_noop_witness :
    msm_mpd_rq_avg_poll_timer
        { boot_engine 4 with msm_mpd := { (boot_engine 4).msm_mpd with next_update := 1000 } }
        40 false 250 0
      = some ⟨{ boot_engine 4 with
                  msm_mpd := { (boot_engine 4).msm_mpd with next_update := 1000 } },
              1000, false⟩ :=
  poll_timer_early_noop
    { boot_engine 4 with msm_mpd := { (boot_engine 4).msm_mpd with next_update := 1000 } }
    40 false 250 0 (by decide)

/-- C8 (amended). For non-negative `int` depth and I/O-wait values and a last
reported depth below `2^31`, the sampler replaces the new depth by the last
reported depth exactly when the I/O-wait value is at least
`iowait_threshold_pct` and the new depth is lower than the last reported
depth; otherwise, in particular when the I/O-wait value is strictly below the
threshold, the new depth is used. -/
theorem iowait_retain_iff (e : Engine) (nr nr_iowait : Int)
    (hnr : 0 ≤ nr) (hnr2 : nr < 2147483648)
    (hio : 0 ≤ nr_iowait) (hio2 : nr_iowait < 2147483648)
    (hl : e.last_nr < 2147483648) :
    iowait_retain e nr nr_iowait =
      if (e.msm_mpd.iowait_threshold_pct : Int) ≤ nr_iowait ∧ nr < (e.last_nr : Int)
      then (e.last_nr : Int) else nr := by
  unfold iowait_retain
  rw [to_u32_of_nonneg nr hnr (by omega), to_u32_of_nonneg nr_iowait hio (by omega),
    to_s32_of_lt _ hl]
  by_cases h1 : (e.msm_mpd.iowait_threshold_pct : Int) ≤ nr_iowait
  · by_cases h2 : nr < (e.last_nr : Int)
    · have h1n : nr_iowait.toNat ≥ e.msm_mpd.iowait_threshold_pct := by omega
      have h2n : nr.toNat < e.last_nr := by omega
      simp [h1, h2, h1n, h2n]
    · have h2n : ¬ nr.toNat < e.last_nr := by omega
      simp [h2, h2n]
  · have h1n : ¬ nr_iowait.toNat ≥ e.msm_mpd.iowait_threshold_pct := by omega
    simp [h1, h1n]

/-- Witness for C8 (amended): I/O-wait 40 against threshold 10, depth 50
after 200. -/
theorem iowait_retain_iff_witness :
    iowait_retain (sampler_engine 10 200 0) 50 40 =
      if ((sampler_engine 10 200 0).msm_mpd.iowait_threshold_pct : Int) ≤ 40
          ∧ (50 : Int) < ((sampler_engine 10 200 0).last_nr : Int)
      then ((sampler_engine 10 200 0).last_nr : Int) else 50 :=
  iowait_retain_iff (sampler_engine 10 200 0) 50 40
    (by decide) (by decide) (by decide) (by decide) (by decide)

/-- C8 (the claim as stated fails). With I/O-wait equal to the threshold (10,
not strictly greater) and a new depth 50 below the last reported depth 200,
the sampler does not use the new depth: it retains 200. -/
theorem iowait_retain_at_threshold :
    (sampler_engine 10 200 0).msm_mpd.iowait_threshold_pct = 10 ∧
    (sampler_engine 10 200 0).last_nr = 200 ∧
    iowait_retain (sampler_engine 10 200 0) 50 10 = 200 ∧
    iowait_retain (sampler_engine 10 200 0) 50 10 ≠ 50 := by
  decide

/-- C10 (amended). For every `rq_avg_poll_ms` value `val` stored by
`msm_mpd_set_rq_avg_poll_ms` with `0 < val` and `val * NSEC_PER_MSEC < 2^32`
(so `val ≤ 4294`), a sampler invocation that takes a sample sets `next_update`
to the current time plus `val` milliseconds, which is strictly greater than
the previous `next_update`; the timer's expiry is that new deadline. -/
theorem poll_timer_next_update (e : Engine) (val : Nat) (curr_time : Int)
    (own_timer : Bool) (nr nr_iowait : Int)
    (hpos : 0 < val) (hfit : val * NSEC_PER_MSEC < 4294967296)
    (hd : e.msm_mpd.rq_avg_divide ≠ 0)
    (ht : (msm_mpd_set_rq_avg_poll_ms e val).1.msm_mpd.next_update ≤ curr_time) :
    (msm_mpd_set_rq_avg_poll_ms e val).2 = 0 ∧
    ∃ r : poll_result,
      msm_mpd_rq_avg_poll_timer (msm_mpd_set_rq_avg_poll_ms e val).1
        curr_time own_timer nr nr_iowait = some r ∧
      r.eng.msm_mpd.next_update = curr_time + (val : Int) * (NSEC_PER_MSEC : Int) ∧
      r.eng.msm_mpd.next_update > (msm_mpd_set_rq_avg_poll_ms e val).1.msm_mpd.next_update ∧
      r.expires = r.eng.msm_mpd.next_update := by
  refine ⟨rfl, ?_⟩
  rw [poll_timer_sample _ curr_time own_timer nr nr_iowait ht]
  have hmod : ((msm_mpd_set_rq_avg_poll_ms e val).1.msm_mpd.rq_avg_poll_ms * NSEC_PER_MSEC)
      % 4294967296 = val * NSEC_PER_MSEC := Nat.mod_eq_of_lt hfit
  have hns : (0 : Int) < (val : Int) * (NSEC_PER_MSEC : Int) := by
    have : (0 : Int) < (NSEC_PER_MSEC : Int) := by decide
    have : (0 : Int) < (val : Int) := by exact_mod_cast hpos
    positivity
  have hnu : (msm_mpd_set_rq_avg_poll_ms e val).1.msm_mpd.next_update
      = e.msm_mpd.next_update := rfl
  rw [hnu] at ht
  rcases hok : ok_to_update_tz (msm_mpd_set_rq_avg_poll_ms e val).1
      (filtered_nr (msm_mpd_set_rq_avg_poll_ms e val).1 nr nr_iowait)
      (to_s32 (msm_mpd_set_rq_avg_poll_ms e val).1.last_nr) with _ | b
  · unfold ok_to_update_tz at hok
    have hd2 : (msm_mpd_set_rq_avg_poll_ms e val).1.msm_mpd.rq_avg_divide ≠ 0 := hd
    rw [if_neg hd2] at hok
    exact absurd hok (by simp)
  · cases b <;>
      refine ⟨_, rfl, ?_, ?_, rfl⟩ <;>
      simp only [hmod, hnu] <;> push_cast <;> omega

/-- Witness for C10 (amended): the default interval of 1 ms, a sample taken
at time 1500 against the deadline 1000. -/
theorem poll_timer_next_update_witness :
    (msm_mpd_set_rq_avg_poll_ms (sampler_engine 0 0 1000) 1).2 = 0 ∧
    ∃ r : poll_result,
      msm_mpd_rq_avg_poll_timer (msm_mpd_set_rq_avg_poll_ms (sampler_engine 0 0 1000) 1).1
        1500 true 30 0 = some r ∧
      r.eng.msm_mpd.next_update = 1500 + ((1 : Nat) : Int) * (NSEC_PER_MSEC : Int) ∧
      r.eng.msm_mpd.next_update
        > (msm_mpd_set_rq_avg_poll_ms (sampler_engine 0 0 1000) 1).1.msm_mpd.next_update ∧
      r.expires = r.eng.msm_mpd.next_update :=
  poll_timer_next_update (sampler_engine 0 0 1000) 1 1500 true 30 0
    (by decide) (by decide) (by decide) (by decide)

/-- C10 (the claim as stated fails). `msm_mpd_set_rq_avg_poll_ms` accepts the
value 0 (it returns 0); a sample then taken exactly at the deadline 1000
leaves `next_update` at 1000, not strictly greater than before. -/
theorem poll_timer_next_update_stalls :
    (msm_mpd_set_rq_avg_poll_ms (sampler_engine 0 0 1000) 0).2 = 0 ∧
    (msm_mpd_set_rq_avg_poll_ms (sampler_engine 0 0 1000) 0).1.msm_mpd.next_update = 1000 ∧
    (msm_mpd_rq_avg_poll_timer (msm_mpd_set_rq_avg_poll_ms (sampler_engine 0 0 1000) 0).1
        1000 true 30 0).map (fun r => r.eng.msm_mpd.next_update) = some 1000 := by
  decide

/-- C9. Starting from `last_nr = 0`, after any sequence of sampler invocations
whose raw depths are non-negative (with arbitrary I/O-wait values and firing
times), `last_nr` is at most `num_present_hundreds`, and so is every depth
that was forwarded in a run-queue update along the way.
`num_present_hundreds` is a non-negative `int`. -/
theorem poll_depth_bounded (e e1 : Engine) (inputs : List poll_input)
    (hl : e.last_nr = 0)
    (h0 : 0 ≤ e.num_present_hundreds) (h1 : e.num_present_hundreds < 2147483648)
    (hin : ∀ i ∈ inputs, 0 ≤ i.nr)
    (hrun : poll_run e inputs = some e1) :
    (e1.last_nr : Int) ≤ e1.num_present_hundreds ∧
    ∀ d ∈ poll_forwarded e inputs, d ≤ e1.num_present_hundreds := by
  obtain ⟨m1, m2, m3⟩ := poll_bound_run inputs e e1 (by rw [hl]; exact_mod_cast h0) h0 h1 hin hrun
  rw [m1]
  exact ⟨m2, m3⟩

/-- Witness for C9: four cores, raw depths 900, 120 and 450 sampled 2 ms
apart (the depths forwarded are 400, 120 and 400). -/
theorem poll_depth_bounded_witness :
    poll_forwarded (sampler_engine 50 0 0) three_samples = [400, 120, 400] ∧
    (((poll_run (sampler_engine 50 0 0) three_samples).getD (boot_engine 0)).last_nr : Int)
      ≤ ((poll_run (sampler_engine 50 0 0) three_samples).getD
          (boot_engine 0)).num_present_hundreds ∧
    ∀ d ∈ poll_forwarded (sampler_engine 50 0 0) three_samples,
      d ≤ ((poll_run (sampler_engine 50 0 0) three_samples).getD
          (boot_engine 0)).num_present_hundreds :=
  ⟨by decide,
    poll_depth_bounded (sampler_engine 50 0 0)
      ((poll_run (sampler_engine 50 0 0) three_samples).getD (boot_engine 0))
      three_samples (by decide) (by decide) (by decide) (by decide) (by decide)⟩

/-- C6 (amended). While the number of online cores equals the number of bits
in the target mask, a sampler invocation whose filtered depth lies in the same
`rq_avg_divide` bucket as `last_nr`, the depth forwarded last, forwards
nothing: the pending request, `last_nr`, the slack timer and the wake-up count
are unchanged. Hence in every sequence of sampler invocations each forwarded
depth lies in another bucket than the depth forwarded just before it.
Buckets are quotients in unsigned arithmetic, as `ok_to_update_tz` computes
them. -/
theorem forwarded_buckets_differ (e : Engine) (inputs : List poll_input)
    (hl : e.last_nr < 4294967296)
    (hm : hweight32 e.msm_mpd.algo_cpu_mask = num_online_cpus e) :
    bucket_chain e.msm_mpd.rq_avg_divide e.last_nr (poll_forwarded e inputs) ∧
    (∀ (curr_time : Int) (own_timer : Bool) (nr nr_iowait : Int),
      e.msm_mpd.rq_avg_divide ≠ 0 →
      to_u32 (filtered_nr e nr nr_iowait) / e.msm_mpd.rq_avg_divide
        = e.last_nr / e.msm_mpd.rq_avg_divide →
      ∃ r : poll_result,
        msm_mpd_rq_avg_poll_timer e curr_time own_timer nr nr_iowait = some r ∧
        r.eng.wake_q = e.wake_q ∧
        r.eng.slack_timer_armed = e.slack_timer_armed ∧
        r.eng.msm_mpd.data = e.msm_mpd.data ∧
        r.eng.last_nr = e.last_nr) := by
  refine ⟨poll_bucket_chain inputs e hl hm, ?_⟩
  intro curr_time own_timer nr nr_iowait hd hb
  by_cases ht : curr_time < e.msm_mpd.next_update
  · have h : curr_time - e.msm_mpd.next_update < 0 := by omega
    refine ⟨⟨e, e.msm_mpd.next_update, own_timer⟩, ?_, rfl, rfl, rfl, rfl⟩
    unfold msm_mpd_rq_avg_poll_timer
    rw [if_pos h]
  · have hok : ok_to_update_tz e (filtered_nr e nr nr_iowait) (to_s32 e.last_nr)
        = some false := by
      unfold ok_to_update_tz
      rw [if_neg hd, to_u32_to_s32 _ hl, hb, hm]
      simp
    rw [poll_timer_sample e curr_time own_timer nr nr_iowait (by omega), hok]
    exact ⟨_, rfl, rfl, rfl, rfl, rfl⟩

/-- Witness for C6 (amended): the depths 30, 60, 40 forwarded from
`last_nr = 0` with divisor 25 change bucket at every step. -/
theorem forwarded_buckets_differ_witness :
    bucket_chain (sampler_engine 50 0 0).msm_mpd.rq_avg_divide (sampler_engine 50 0 0).last_nr
      (poll_forwarded (sampler_engine 50 0 0) up_and_back_samples) :=
  (forwarded_buckets_differ (sampler_engine 50 0 0) up_and_back_samples
    (by decide) (by decide)).1

/-- C6 (the claim as stated fails). With four cores online, mask `0b1111`,
divisor 25 and I/O-wait below the threshold, the depths 30, 60 and 40 sampled
one after the other are all forwarded, although 30 and 40 lie in the same
bucket. -/
theorem same_bucket_forwarded_twice :
    poll_forwarded (sampler_engine 50 0 0) up_and_back_samples = [30, 60, 40] ∧
    to_u32 30 / (sampler_engine 50 0 0).msm_mpd.rq_avg_divide
      = to_u32 40 / (sampler_engine 50 0 0).msm_mpd.rq_avg_divide ∧
    hweight32 (sampler_engine 50 0 0).msm_mpd.algo_cpu_mask
      = num_online_cpus (sampler_engine 50 0 0) ∧
    ((poll_run (sampler_engine 50 0 0) up_and_back_samples).map
      (fun x => (x.msm_mpd.rq_avg_divide, x.msm_mpd.algo_cpu_mask, x.cpu_online_map)))
      = some (25, 15, [true, true, true, true]) := by
  decide

/-- The multiplication `rq_avg_poll_ms * NSEC_PER_MSEC` is done in 32 bits:
with `rq_avg_poll_ms = 4295` a sample taken at time 1000 moves `next_update`
to `1000 + 32704`, not 4295 ms ahead. -/
theorem poll_timer_next_update_wraps :
    (msm_mpd_rq_avg_poll_timer (msm_mpd_set_rq_avg_poll_ms (sampler_engine 0 0 1000) 4295).1
        1000 true 30 0).map (fun r => r.eng.msm_mpd.next_update) = some 33704 := by
  decide

/-! ## Decision worker and slack timer: the claims -/

/-- C11. On slack timer expiry, if a run-queue update is pending
`msm_mpd_slack_timer` leaves the whole engine unchanged (the pending request
stays, the decision worker is not woken); otherwise the pending request
becomes `MSM_DCVS_SCM_MPD_QOS_TIMER_EXPIRED` with `nr = 0`, the decision
worker is woken once and nothing else changes. The callback always returns
`HRTIMER_NORESTART`. -/
theorem slack_timer_expiry (e : Engine) :
    (e.msm_mpd.data.event = msm_dcvs_scm_event.MSM_DCVS_SCM_RUNQ_UPDATE →
      (msm_mpd_slack_timer e).1 = e) ∧
    (e.msm_mpd.data.event ≠ msm_dcvs_scm_event.MSM_DCVS_SCM_RUNQ_UPDATE →
      (msm_mpd_slack_timer e).1 =
        { e with
          msm_mpd := { e.msm_mpd with
            data := ⟨msm_dcvs_scm_event.MSM_DCVS_SCM_MPD_QOS_TIMER_EXPIRED, 0⟩ }
          wake_q := e.wake_q + 1 }) ∧
    (msm_mpd_slack_timer e).2 = false := by
  unfold msm_mpd_slack_timer
  refine ⟨fun h => ?_, fun h => ?_, ?_⟩
  · rw [if_pos h]
  · rw [if_neg h]
  · split <;> rfl

/-- C12. One iteration of the decision worker with a pending request calls
the oracle exactly once: with the run-queue event and the pending depth
(converted to `uint32_t`, which is the depth itself when it is non-negative)
for a run-queue update, with the timer event and value 0 for a slack expiry
whatever `nr` held; afterwards the slot is empty (`event = 0`, `nr = 0`). So
a slack expiry with no run-queue update pending reaches the oracle exactly
once: the next iteration finds nothing to do. -/
theorem do_update_scm_iteration (e : Engine) (reply : scm_reply) :
    (e.msm_mpd.data.event = msm_dcvs_scm_event.MSM_DCVS_SCM_RUNQ_UPDATE →
      (msm_mpd_do_update_scm e reply).oracle_calls =
        [(msm_dcvs_scm_event.MSM_DCVS_SCM_RUNQ_UPDATE, to_u32 e.msm_mpd.data.nr)] ∧
      (0 ≤ e.msm_mpd.data.nr → e.msm_mpd.data.nr < 4294967296 →
        (msm_mpd_do_update_scm e reply).oracle_calls =
          [(msm_dcvs_scm_event.MSM_DCVS_SCM_RUNQ_UPDATE, e.msm_mpd.data.nr.toNat)]) ∧
      (msm_mpd_do_update_scm e reply).eng.msm_mpd.data = ⟨msm_dcvs_scm_event.ZERO, 0⟩) ∧
    (e.msm_mpd.data.event = msm_dcvs_scm_event.MSM_DCVS_SCM_MPD_QOS_TIMER_EXPIRED →
      (msm_mpd_do_update_scm e reply).oracle_calls =
        [(msm_dcvs_scm_event.MSM_DCVS_SCM_MPD_QOS_TIMER_EXPIRED, 0)] ∧
      (msm_mpd_do_update_scm e reply).eng.msm_mpd.data = ⟨msm_dcvs_scm_event.ZERO, 0⟩) ∧
    (e.msm_mpd.data.event ≠ msm_dcvs_scm_event.MSM_DCVS_SCM_RUNQ_UPDATE →
      (msm_mpd_do_update_scm (msm_mpd_slack_timer e).1 reply).oracle_calls =
        [(msm_dcvs_scm_event.MSM_DCVS_SCM_MPD_QOS_TIMER_EXPIRED, 0)] ∧
      ∀ reply2 : scm_reply,
        (msm_mpd_do_update_scm
          (msm_mpd_do_update_scm (msm_mpd_slack_timer e).1 reply).eng reply2).oracle_calls
          = []) := by
  have hiter : ∀ (x : Engine) (ev : msm_dcvs_scm_event) (n : Int) (rp : scm_reply),
      (msm_mpd_update_scm x ev n rp).oracle_calls =
        [(ev, if ev = msm_dcvs_scm_event.MSM_DCVS_SCM_RUNQ_UPDATE then to_u32 n else 0)] ∧
      (msm_mpd_update_scm x ev n rp).eng.msm_mpd.data = x.msm_mpd.data := by
    intro x ev n rp
    unfold msm_mpd_update_scm
    by_cases h1 : rp.ret ≠ 0 <;> by_cases h2 : rp.slack_us ≠ 0 <;> simp [h1, h2]
  refine ⟨fun h => ?_, fun h => ?_, fun h => ?_⟩
  · have hcalls : (msm_mpd_do_update_scm e reply).oracle_calls =
        [(msm_dcvs_scm_event.MSM_DCVS_SCM_RUNQ_UPDATE, to_u32 e.msm_mpd.data.nr)] := by
      unfold msm_mpd_do_update_scm
      rw [if_pos (Or.inr h), (hiter _ _ _ _).1, h]
      simp
    refine ⟨hcalls, fun h0 h1 => ?_, ?_⟩
    · rw [hcalls, to_u32_of_nonneg _ h0 h1]
    · unfold msm_mpd_do_update_scm
      rw [if_pos (Or.inr h), (hiter _ _ _ _).2]
  · constructor
    · unfold msm_mpd_do_update_scm
      rw [if_pos (Or.inl h), (hiter _ _ _ _).1, h]
      simp
    · unfold msm_mpd_do_update_scm
      rw [if_pos (Or.inl h), (hiter _ _ _ _).2]
  · have hs : (msm_mpd_slack_timer e).1.msm_mpd.data =
        ⟨msm_dcvs_scm_event.MSM_DCVS_SCM_MPD_QOS_TIMER_EXPIRED, 0⟩ := by
      unfold msm_mpd_slack_timer
      rw [if_neg h]
    have hev : (msm_mpd_slack_timer e).1.msm_mpd.data.event =
        msm_dcvs_scm_event.MSM_DCVS_SCM_MPD_QOS_TIMER_EXPIRED := by rw [hs]
    have hdata : (msm_mpd_do_update_scm (msm_mpd_slack_timer e).1 reply).eng.msm_mpd.data
        = ⟨msm_dcvs_scm_event.ZERO, 0⟩ := by
      unfold msm_mpd_do_update_scm
      rw [if_pos (Or.inl hev), (hiter _ _ _ _).2]
    constructor
    · unfold msm_mpd_do_update_scm
      rw [if_pos (Or.inl hev), (hiter _ _ _ _).1, hev]
      simp
    · intro reply2
      generalize msm_mpd_do_update_scm (msm_mpd_slack_timer e).1 reply = r at hdata
      unfold msm_mpd_do_update_scm
      rw [hdata]
      simp

/-- C13. When the oracle call fails, `msm_mpd_update_scm` returns the oracle's
non-zero error code and leaves the whole engine as it was (so
`algo_cpu_mask`, `slack_us`, `hpupdate`, the wake-up count of the hotplug
worker, the slack timer and the online map are unchanged) and does not start
the slack timer; after any number of failing calls in a row the engine is
still unchanged. -/
theorem update_scm_failure (e : Engine) (event : msm_dcvs_scm_event) (nr : Int)
    (reply : scm_reply) (hfail : reply.ret ≠ 0) :
    (msm_mpd_update_scm e event nr reply).eng = e ∧
    (msm_mpd_update_scm e event nr reply).ret = reply.ret ∧
    (msm_mpd_update_scm e event nr reply).ret ≠ 0 ∧
    (msm_mpd_update_scm e event nr reply).slack_timer_start = none ∧
    (∀ calls : List (msm_dcvs_scm_event × Int × scm_reply),
      (∀ c ∈ calls, c.2.2.ret ≠ 0) → update_scm_run e calls = e) := by
  have h1 : ∀ (x : Engine) (ev : msm_dcvs_scm_event) (n : Int) (rp : scm_reply),
      rp.ret ≠ 0 → msm_mpd_update_scm x ev n rp =
        ⟨x, rp.ret,
          [(ev, if ev = msm_dcvs_scm_event.MSM_DCVS_SCM_RUNQ_UPDATE then to_u32 n else 0)],
          none⟩ := by
    intro x ev n rp h
    unfold msm_mpd_update_scm
    rw [if_pos h]
  rw [h1 e event nr reply hfail]
  refine ⟨rfl, rfl, hfail, rfl, ?_⟩
  intro calls
  induction calls with
  | nil => intro _; rfl
  | cons c rest ih =>
    intro hall
    unfold update_scm_run
    rw [h1 e c.1 c.2.1 c.2.2 (hall c (List.mem_cons_self c rest))]
    exact ih (fun d hd => hall d (List.mem_cons_of_mem c hd))

/-- Witness for C13: the oracle answers a run-queue update with error -5. -/
theorem update_scm_failure_witness :
    (msm_mpd_update_scm (sampler_engine 0 30 0)
        msm_dcvs_scm_event.MSM_DCVS_SCM_RUNQ_UPDATE 30 ⟨-5, 3, 20000⟩).eng
      = sampler_engine 0 30 0 :=
  (update_scm_failure (sampler_engine 0 30 0)
    msm_dcvs_scm_event.MSM_DCVS_SCM_RUNQ_UPDATE 30 ⟨-5, 3, 20000⟩ (by decide)).1

/-- C14. When the oracle call succeeds with `(req_cpu_mask, slack_us)`,
`msm_mpd_update_scm` stores both, sets `hpupdate` to `HPUPDATE_SCHEDULED` and
wakes the hotplug worker once; the slack timer is cancelled and started again
exactly when the returned `slack_us` is non-zero, and is left alone
otherwise. -/
theorem update_scm_success (e : Engine) (event : msm_dcvs_scm_event) (nr : Int)
    (reply : scm_reply) (hok : reply.ret = 0) :
    (msm_mpd_update_scm e event nr reply).eng.msm_mpd.algo_cpu_mask = reply.req_cpu_mask ∧
    (msm_mpd_update_scm e event nr reply).eng.msm_mpd.slack_us = reply.slack_us ∧
    (msm_mpd_update_scm e event nr reply).eng.msm_mpd.hpupdate = HPUPDATE_SCHEDULED ∧
    (msm_mpd_update_scm e event nr reply).eng.wake_hpq = e.wake_hpq + 1 ∧
    ((msm_mpd_update_scm e event nr reply).slack_timer_start.isSome = true
      ↔ reply.slack_us ≠ 0) ∧
    (reply.slack_us ≠ 0 →
      (msm_mpd_update_scm e event nr reply).eng.slack_timer_armed = true) ∧
    (reply.slack_us = 0 →
      (msm_mpd_update_scm e event nr reply).eng.slack_timer_armed = e.slack_timer_armed) := by
  have hret : ¬ reply.ret ≠ 0 := by simp [hok]
  unfold msm_mpd_update_scm
  simp only [hret, if_false]
  by_cases hs : reply.slack_us = 0
  · simp [hs]
  · simp [hs]

/-- Witness for C14: the oracle answers mask `0b0011` and a slack of 20 ms. -/
theorem update_scm_success_witness :
    (msm_mpd_update_scm (boot_engine 4)
        msm_dcvs_scm_event.MSM_DCVS_SCM_RUNQ_UPDATE 30 ⟨0, 3, 20000⟩).eng.msm_mpd.algo_cpu_mask
      = 3 :=
  (update_scm_success (boot_engine 4)
    msm_dcvs_scm_event.MSM_DCVS_SCM_RUNQ_UPDATE 30 ⟨0, 3, 20000⟩ rfl).1

/-- As long as `slack_us * NSEC_PER_USEC` fits in 32 bits (`slack_us` up to
4294967), a non-zero slack starts the timer for exactly that many
nanoseconds. -/
theorem update_scm_slack_fits (e : Engine) (event : msm_dcvs_scm_event) (nr : Int)
    (reply : scm_reply) (hok : reply.ret = 0) (hnz : reply.slack_us ≠ 0)
    (hfit : reply.slack_us * NSEC_PER_USEC < 4294967296) :
    (msm_mpd_update_scm e event nr reply).slack_timer_start
      = some (reply.slack_us * NSEC_PER_USEC) := by
  have hret : ¬ reply.ret ≠ 0 := by simp [hok]
  unfold msm_mpd_update_scm
  simp only [hret, if_false, hnz, ne_eq, not_false_eq_true, if_true]
  rw [Nat.mod_eq_of_lt hfit]

/-- C15 (the code departs from the claim). For the slack 20000 us the timer
is started for 20 ms, but for the slack 4294968 us (about 4.29 s) the 32-bit
product `slack_us * NSEC_PER_USEC` wraps and the timer is started for 704 ns
instead of 4294968000 ns. -/
theorem update_scm_slack_wraps :
    (msm_mpd_update_scm (boot_engine 4)
        msm_dcvs_scm_event.MSM_DCVS_SCM_RUNQ_UPDATE 30 ⟨0, 3, 20000⟩).slack_timer_start
      = some (20 * NSEC_PER_MSEC) ∧
    (msm_mpd_update_scm (boot_engine 4)
        msm_dcvs_scm_event.MSM_DCVS_SCM_RUNQ_UPDATE 30 ⟨0, 3, 4294968⟩).slack_timer_start
      = some 704 ∧
    4294968 * NSEC_PER_USEC = 4294968000 ∧ 4294968 < 4294967296 := by
  decide

/-! ## Hotplug worker: retries and republishing -/

/-- The ways a reconciliation pass can end, in terms of the engine `e1` the up
phase left: without a bring-offline attempt, dead in `BUG_ON`, or after one
bring-offline attempt. -/
theorem do_hotplug_cases (e : Engine) (env : hp_env) (r : hp_result)
    (hr : msm_mpd_do_hotplug e env = some r) :
    ∃ (e1 : Engine) (ups : List hp_attempt) (n1 : Nat),
      up_phase env (e.cpu_online_map.length + 1)
        { e with msm_mpd := { e.msm_mpd with hpupdate := HPUPDATE_IN_PROGRESS } } [] 0
        = some (e1, ups, n1) ∧
      (((¬ env.t_check - e1.last_down_time > 100 * (NSEC_PER_MSEC : Int) ∨
          down_candidate e1 (List.range e1.cpu_online_map.length) = none) ∧
        r = ⟨{ e1 with msm_mpd := { e1.msm_mpd with hpupdate := HPUPDATE_WAITING } },
              ups, n1, false⟩) ∨
       (∃ cpu : Nat,
          env.t_check - e1.last_down_time > 100 * (NSEC_PER_MSEC : Int) ∧
          down_candidate e1 (List.range e1.cpu_online_map.length) = some cpu ∧
          bring_down_cpu e1 cpu env.down = none ∧ r = ⟨e1, ups, n1, true⟩) ∨
       (∃ (cpu : Nat) (e2 : Engine),
          env.t_check - e1.last_down_time > 100 * (NSEC_PER_MSEC : Int) ∧
          down_candidate e1 (List.range e1.cpu_online_map.length) = some cpu ∧
          bring_down_cpu e1 cpu env.down = some e2 ∧
          r = ⟨{ e2 with
                  last_down_time := env.t_after
                  msm_mpd := { e2.msm_mpd with hpupdate := HPUPDATE_WAITING } },
                ups ++ [hp_attempt.down cpu], n1, false⟩)) := by
  obtain ⟨e1, ups, n1, h1, _, _, _⟩ :=
    up_phase_spec env (e.cpu_online_map.length + 1)
      { e with msm_mpd := { e.msm_mpd with hpupdate := HPUPDATE_IN_PROGRESS } } [] 0
      (Nat.lt_succ_of_le (List.count_le_length _ _))
  simp only [List.nil_append] at h1
  refine ⟨e1, ups, n1, h1, ?_⟩
  unfold msm_mpd_do_hotplug at hr
  simp only [h1] at hr
  by_cases hdeb : env.t_check - e1.last_down_time > 100 * (NSEC_PER_MSEC : Int)
  · simp only [hdeb, if_true] at hr
    cases hcand : down_candidate e1 (List.range e1.cpu_online_map.length) with
    | none =>
      rw [hcand] at hr
      simp only [Option.some.injEq] at hr
      exact Or.inl ⟨Or.inr rfl, hr.symm⟩
    | some cpu =>
      rw [hcand] at hr
      dsimp only at hr
      cases hdown : bring_down_cpu e1 cpu env.down with
      | none =>
        rw [hdown] at hr
        simp only [Option.some.injEq] at hr
        exact Or.inr (Or.inl ⟨cpu, hdeb, rfl, hdown, hr.symm⟩)
      | some e2 =>
        rw [hdown] at hr
        simp only [Option.some.injEq] at hr
        exact Or.inr (Or.inr ⟨cpu, e2, hdeb, rfl, hdown, hr.symm⟩)
  · simp only [hdeb, if_false, Option.some.injEq] at hr
    exact Or.inl ⟨Or.inl hdeb, hr.symm⟩

theorem bring_up_cpu_online_ok (e : Engine) (cpu : Nat) (o : cpu_outcome)
    (hoff : cpu_online e cpu = false) (hon : cpu_online (bring_up_cpu e cpu o) cpu = true) :
    o.ok = true := by
  by_contra hne
  have : bring_up_cpu e cpu o = e := by
    unfold bring_up_cpu
    simp [hne]
  rw [this, hoff] at hon
  exact absurd hon (by simp)

theorem retried_after_success_snoc (env : hp_env) (tr : List hp_attempt) (s cpu : Nat)
    (hinv : retried_after_success env tr) (hs : s ≤ tr.length)
    (hprev : ∀ i, i < s → ∃ k, i ≤ k ∧ k < s ∧ (env.up k).ok = true)
    (hcur : ∀ i c, s ≤ i → tr[i]? = some (hp_attempt.up c) → c < cpu) :
    retried_after_success env (tr ++ [hp_attempt.up cpu]) := by
  intro i j c hij hi hj
  by_cases hjl : j < tr.length
  · rw [List.getElem?_append_left hjl] at hj
    rw [List.getElem?_append_left (by omega)] at hi
    exact hinv i j c hij hi hj
  · by_cases hje : j = tr.length
    · subst hje
      rw [List.getElem?_append_right (le_refl _)] at hj
      simp at hj
      subst hj
      rw [List.getElem?_append_left hij] at hi
      by_cases hsi : s ≤ i
      · have := hcur i cpu hsi hi
        omega
      · obtain ⟨k, hk1, hk2, hk3⟩ := hprev i (by omega)
        exact ⟨k, hk1, by omega, hk3⟩
    · have hnone : (tr ++ [hp_attempt.up cpu])[j]? = none := by
        apply List.getElem?_eq_none
        simp
        omega
      rw [hnone] at hj
      cases hj

/-- One scan of the up phase keeps `retried_after_success`: within a scan the
cpus attempted are strictly increasing, and a scan that ends in
`goto restart` ends with a successful attempt. -/
theorem up_scan_retry (env : hp_env) (cpus : List Nat) :
    ∀ (e : Engine) (tr : List hp_attempt) (s : Nat),
      cpus.Pairwise (fun a b => a < b) →
      retried_after_success env tr → s ≤ tr.length →
      (∀ i, i < s → ∃ k, i ≤ k ∧ k < s ∧ (env.up k).ok = true) →
      (∀ i c, s ≤ i → tr[i]? = some (hp_attempt.up c) → ∀ c2 ∈ cpus, c < c2) →
      retried_after_success env (up_scan env cpus e tr).2.1 ∧
      ((up_scan env cpus e tr).2.2 = true →
        ∀ i, i < (up_scan env cpus e tr).2.1.length →
          ∃ k, i ≤ k ∧ k < (up_scan env cpus e tr).2.1.length ∧ (env.up k).ok = true) := by
  induction cpus with
  | nil =>
    intro e tr s _ hinv _ _ _
    simp [up_scan, hinv]
  | cons cpu rest ih =>
    intro e tr s hpw hinv hs hprev hcur
    have hpw2 := List.pairwise_cons.mp hpw
    by_cases hc : (e.msm_mpd.algo_cpu_mask.testBit cpu && !cpu_online e cpu) = true
    · have hoff : cpu_online e cpu = false := by
        simp at hc
        exact hc.2
      have hsnoc : retried_after_success env (tr ++ [hp_attempt.up cpu]) :=
        retried_after_success_snoc env tr s cpu hinv hs hprev
          (fun i c hsi hi => hcur i c hsi hi cpu (List.mem_cons_self cpu rest))
      by_cases hon : cpu_online (bring_up_cpu e cpu (env.up tr.length)) cpu = true
      · have hok := bring_up_cpu_online_ok e cpu (env.up tr.length) hoff hon
        simp only [up_scan, hc, hon, if_true]
        refine ⟨hsnoc, fun _ i hi => ⟨tr.length, ?_, ?_, hok⟩⟩
        · simp at hi
          omega
        · simp
      · have hon2 : cpu_online (bring_up_cpu e cpu (env.up tr.length)) cpu = false := by
          simpa using hon
        simp only [up_scan, hc, hon2, if_true]
        apply ih (bring_up_cpu e cpu (env.up tr.length)) (tr ++ [hp_attempt.up cpu]) s
          hpw2.2 hsnoc (by simp; omega) hprev
        intro i c hsi hi c2 hc2
        have hlt : cpu < c2 := hpw2.1 c2 hc2
        by_cases hil : i < tr.length
        · rw [List.getElem?_append_left hil] at hi
          have := hcur i c hsi hi cpu (List.mem_cons_self cpu rest)
          omega
        · by_cases hie : i = tr.length
          · subst hie
            rw [List.getElem?_append_right (le_refl _)] at hi
            simp at hi
            omega
          · have hnone : (tr ++ [hp_attempt.up cpu])[i]? = none := by
              apply List.getElem?_eq_none
              simp
              omega
            rw [hnone] at hi
            cases hi
    · simp only [up_scan, hc]
      exact ih e tr s hpw2.2 hinv hs hprev
        (fun i c hsi hi c2 hc2 => hcur i c hsi hi c2 (List.mem_cons_of_mem cpu hc2))

theorem up_phase_retry (env : hp_env) :
    ∀ (fuel : Nat) (e : Engine) (tr : List hp_attempt) (n : Nat)
      (e1 : Engine) (tr1 : List hp_attempt) (n1 : Nat),
      retried_after_success env tr →
      (∀ i, i < tr.length → ∃ k, i ≤ k ∧ k < tr.length ∧ (env.up k).ok = true) →
      up_phase env fuel e tr n = some (e1, tr1, n1) →
      retried_after_success env tr1 := by
  intro fuel
  induction fuel with
  | zero =>
    intro e tr n e1 tr1 n1 _ _ h
    simp [up_phase] at h
  | succ fuel ih =>
    intro e tr n e1 tr1 n1 hinv hprev h
    have hscan := up_scan_retry env (List.range e.cpu_online_map.length) e tr tr.length
      (List.pairwise_lt_range _) hinv (le_refl _) hprev
      (by
        intro i c hi hget
        have hnone : tr[i]? = none := List.getElem?_eq_none hi
        rw [hnone] at hget
        cases hget)
    rcases hres : up_scan env (List.range e.cpu_online_map.length) e tr with ⟨e2, tr2, b⟩
    rw [hres] at hscan
    simp only [up_phase, hres] at h
    cases b with
    | true =>
      simp only at h
      exact ih e2 tr2 (n + 1) e1 tr1 n1 hscan.1 (hscan.2 rfl) h
    | false =>
      simp only [Option.some.injEq, Prod.mk.injEq] at h
      rw [← h.2.1]
      exact hscan.1

theorem retried_after_success_down (env : hp_env) (ups : List hp_attempt) (cpu : Nat)
    (h : retried_after_success env ups) :
    retried_after_success env (ups ++ [hp_attempt.down cpu]) := by
  intro i j c hij hi hj
  by_cases hjl : j < ups.length
  · rw [List.getElem?_append_left hjl] at hj
    rw [List.getElem?_append_left (by omega)] at hi
    exact h i j c hij hi hj
  · by_cases hje : j = ups.length
    · subst hje
      rw [List.getElem?_append_right (le_refl _)] at hj
      simp at hj
    · have hnone : (ups ++ [hp_attempt.down cpu])[j]? = none := by
        apply List.getElem?_eq_none
        simp
        omega
      rw [hnone] at hj
      cases hj

/-- C17 (amended). Within one reconciliation pass, a core whose bring-online
attempt failed is attempted again only after some bring-online attempt made
in between has succeeded (each success restarts the scan from cpu 0); as long
as no attempt succeeds, no core is attempted twice. Positions in the trace
number the calls of `cpu_up`. -/
theorem retry_only_after_success (e : Engine) (env : hp_env) (r : hp_result)
    (i j c : Nat)
    (hr : msm_mpd_do_hotplug e env = some r) (hij : i < j)
    (hi : r.trace[i]? = some (hp_attempt.up c))
    (hj : r.trace[j]? = some (hp_attempt.up c))
    (hfail : (env.up i).ok = false) :
    ∃ k : Nat, i < k ∧ k < j ∧ (env.up k).ok = true := by
  obtain ⟨e1, ups, n1, hup, hcase⟩ := do_hotplug_cases e env r hr
  have hinv : retried_after_success env ups :=
    up_phase_retry env _ _ [] 0 e1 ups n1
      (by intro i j c _ h _; simp at h) (by intro i h; simp at h) hup
  have htr : retried_after_success env r.trace := by
    rcases hcase with ⟨_, h⟩ | ⟨cpu, _, _, _, h⟩ | ⟨cpu, e2, _, _, _, h⟩
    · rw [h]; exact hinv
    · rw [h]; exact hinv
    · rw [h]; exact retried_after_success_down env ups cpu hinv
  obtain ⟨k, hk1, hk2, hk3⟩ := htr i j c hij hi hj
  refine ⟨k, ?_, hk2, hk3⟩
  rcases Nat.lt_or_ge i k with h | h
  · exact h
  · have : k = i := by omega
    rw [this, hfail] at hk3
    cases hk3

/-- Witness for C17 (amended): mask `0b110` with only core 0 online; the
attempt on core 1 fails, the one on core 2 succeeds, core 1 is tried again. -/
theorem retry_only_after_success_witness :
    ∃ k : Nat, 0 < k ∧ k < 2 ∧ ((env_first_up_fails 1000000000 1000000005).up k).ok = true :=
  retry_only_after_success (engine_with 6 [true, false, false])
    (env_first_up_fails 1000000000 1000000005)
    ((msm_mpd_do_hotplug (engine_with 6 [true, false, false])
      (env_first_up_fails 1000000000 1000000005)).getD ⟨boot_engine 0, [], 0, false⟩)
    0 2 1 (by decide) (by decide) (by decide) (by decide) (by decide)

/-- C17 (the claim as stated fails). Mask `0b110` with only core 0 online:
the first `cpu_up`, on core 1, fails; the second, on core 2, succeeds and
restarts the scan; core 1 is then attempted again in the same pass. -/
theorem failed_core_retried :
    ((env_first_up_fails 1000000000 1000000005).up 0).ok = false ∧
    (msm_mpd_do_hotplug (engine_with 6 [true, false, false])
        (env_first_up_fails 1000000000 1000000005)).map (fun r => r.trace)
      = some [hp_attempt.up 1, hp_attempt.up 2, hp_attempt.up 1] := by
  decide

theorem getD_set_self (l : List Bool) (i : Nat) (v : Bool) (h : i < l.length) :
    (l.set i v).getD i false = v := by
  simp [List.getD_eq_getElem?_getD, List.getElem?_set, h]

theorem getD_set_ne (l : List Bool) (i j : Nat) (v : Bool) (h : i ≠ j) :
    (l.set i v).getD j false = l.getD j false := by
  simp [List.getD_eq_getElem?_getD, List.getElem?_set, h]

theorem up_scan_noop (env : hp_env) (cpus : List Nat) (e : Engine) (tr : List hp_attempt)
    (h : ∀ c ∈ cpus, (e.msm_mpd.algo_cpu_mask.testBit c && !cpu_online e c) = false) :
    up_scan env cpus e tr = (e, tr, false) := by
  induction cpus with
  | nil => rfl
  | cons cpu rest ih =>
    have hc := h cpu (List.mem_cons_self cpu rest)
    unfold up_scan
    rw [hc]
    simp only [Bool.false_eq_true, if_false]
    exact ih (fun c hc => h c (List.mem_cons_of_mem cpu hc))

theorem down_candidate_head (e : Engine) (cpus : List Nat) :
    down_candidate e cpus =
      (cpus.filter
        (fun cpu => !(e.msm_mpd.algo_cpu_mask.testBit cpu) && cpu_online e cpu)).head? := by
  induction cpus with
  | nil => rfl
  | cons cpu rest ih =>
    unfold down_candidate
    by_cases hc : (!(e.msm_mpd.algo_cpu_mask.testBit cpu) && cpu_online e cpu) = true
    · rw [if_pos hc]
      simp [List.filter_cons, hc]
    · rw [if_neg hc, ih]
      simp [List.filter_cons, hc]

theorem stray_online_nil_of_settled (e : Engine) (h : settled e) : stray_online e = [] := by
  unfold stray_online
  rw [List.filter_eq_nil_iff]
  intro c hc
  have hlt : c < e.cpu_online_map.length := List.mem_range.mp hc
  have := h c hlt
  cases hb : e.msm_mpd.algo_cpu_mask.testBit c <;> rw [hb] at this <;> simp [← this]

/-- A pass started when the target state is already reached makes no
transition attempt, whatever the kernel would answer, and leaves the online
map and the latency counters as they are. -/
theorem do_hotplug_settled (e : Engine) (env : hp_env) (h : settled e) :
    msm_mpd_do_hotplug e env =
      some ⟨{ e with msm_mpd := { e.msm_mpd with hpupdate := HPUPDATE_WAITING } },
            [], 0, false⟩ := by
  have hstray := stray_online_nil_of_settled e h
  have hup : up_scan env (List.range e.cpu_online_map.length)
      { e with msm_mpd := { e.msm_mpd with hpupdate := HPUPDATE_IN_PROGRESS } } []
      = ({ e with msm_mpd := { e.msm_mpd with hpupdate := HPUPDATE_IN_PROGRESS } }, [], false) := by
    apply up_scan_noop
    intro c hc
    have hlt : c < e.cpu_online_map.length := List.mem_range.mp hc
    have := h c hlt
    show (e.msm_mpd.algo_cpu_mask.testBit c && !cpu_online e c) = false
    rw [this]
    simp
  have hcand : down_candidate
      { e with msm_mpd := { e.msm_mpd with hpupdate := HPUPDATE_IN_PROGRESS } }
      (List.range e.cpu_online_map.length) = none := by
    rw [down_candidate_head]
    have : stray_online e = [] := hstray
    unfold stray_online at this
    show ((List.range e.cpu_online_map.length).filter
      (fun cpu => !(e.msm_mpd.algo_cpu_mask.testBit cpu) && cpu_online e cpu)).head? = none
    rw [this]
    rfl
  unfold msm_mpd_do_hotplug
  simp only [up_phase, hup, hcand]
  split <;> rfl

/-- With every `cpu_up` succeeding, a scan that ends without `goto restart`
found every core of the mask online and changed nothing. -/
theorem up_scan_all_ok (env : hp_env) (hok : ∀ k, (env.up k).ok = true) (cpus : List Nat) :
    ∀ (e : Engine) (tr : List hp_attempt),
      (∀ c ∈ cpus, c < e.cpu_online_map.length) →
      (up_scan env cpus e tr).2.2 = false →
      (up_scan env cpus e tr).1 = e ∧
      ∀ c ∈ cpus, e.msm_mpd.algo_cpu_mask.testBit c = true → cpu_online e c = true := by
  induction cpus with
  | nil =>
    intro e tr _ _
    exact ⟨rfl, by simp⟩
  | cons cpu rest ih =>
    intro e tr hlt hres
    by_cases hc : (e.msm_mpd.algo_cpu_mask.testBit cpu && !cpu_online e cpu) = true
    · exfalso
      have hon : cpu_online (bring_up_cpu e cpu (env.up tr.length)) cpu = true := by
        unfold bring_up_cpu
        rw [if_pos (hok _)]
        exact getD_set_self _ _ _ (hlt cpu (List.mem_cons_self cpu rest))
      simp [up_scan, hc, hon] at hres
    · simp only [up_scan, hc] at hres ⊢
      obtain ⟨h1, h2⟩ := ih e tr (fun c hc => hlt c (List.mem_cons_of_mem cpu hc)) hres
      refine ⟨h1, ?_⟩
      intro c hcm hbit
      rcases List.mem_cons.mp hcm with rfl | hcm
      · simp [hbit] at hc
        exact hc
      · exact h2 c hcm hbit

/-- A scan of the up phase does not change whether a core outside the mask is
online. -/
theorem up_scan_stray (env : hp_env) (cpus : List Nat) :
    ∀ (e : Engine) (tr : List hp_attempt) (c : Nat),
      e.msm_mpd.algo_cpu_mask.testBit c = false →
      cpu_online (up_scan env cpus e tr).1 c = cpu_online e c := by
  induction cpus with
  | nil =>
    intro e tr c _
    rfl
  | cons cpu rest ih =>
    intro e tr c hbit
    have hstep : e.msm_mpd.algo_cpu_mask.testBit cpu = true →
        cpu_online (bring_up_cpu e cpu (env.up tr.length)) c = cpu_online e c := by
      intro hcpu
      have hne : cpu ≠ c := by
        intro heq
        rw [heq, hbit] at hcpu
        cases hcpu
      unfold cpu_online
      rcases bring_up_cpu_map e cpu (env.up tr.length) with h | h
      · rw [h]
      · rw [h]
        exact getD_set_ne _ _ _ _ hne
    by_cases hc : (e.msm_mpd.algo_cpu_mask.testBit cpu && !cpu_online e cpu) = true
    · have hcpu : e.msm_mpd.algo_cpu_mask.testBit cpu = true := by
        simp at hc
        exact hc.1
      by_cases hon : cpu_online (bring_up_cpu e cpu (env.up tr.length)) cpu = true
      · simp only [up_scan, hc, hon, if_true]
        exact hstep hcpu
      · have hon2 : cpu_online (bring_up_cpu e cpu (env.up tr.length)) cpu = false := by
          simpa using hon
        simp only [up_scan, hc, hon2, if_true, Bool.false_eq_true, if_false]
        rw [ih _ _ c (by rw [bring_up_cpu_msm_mpd]; exact hbit)]
        exact hstep hcpu
    · simp only [up_scan, hc]
      exact ih e tr c hbit

/-- With every `cpu_up` succeeding, the up phase ends with every core of the
mask online; it never changes the mask, the number of possible cpus,
`last_down_time`, or whether a core outside the mask is online. -/
theorem up_phase_all_ok (env : hp_env) (hok : ∀ k, (env.up k).ok = true) :
    ∀ (fuel : Nat) (e : Engine) (tr : List hp_attempt) (n : Nat)
      (e1 : Engine) (tr1 : List hp_attempt) (n1 : Nat),
      up_phase env fuel e tr n = some (e1, tr1, n1) →
      e1.msm_mpd = e.msm_mpd ∧
      e1.cpu_online_map.length = e.cpu_online_map.length ∧
      e1.last_down_time = e.last_down_time ∧
      (∀ c, e.msm_mpd.algo_cpu_mask.testBit c = false → cpu_online e1 c = cpu_online e c) ∧
      (∀ c, c < e1.cpu_online_map.length →
        e1.msm_mpd.algo_cpu_mask.testBit c = true → cpu_online e1 c = true) := by
  intro fuel
  induction fuel with
  | zero =>
    intro e tr n e1 tr1 n1 h
    simp [up_phase] at h
  | succ fuel ih =>
    intro e tr n e1 tr1 n1 h
    obtain ⟨_, _, _, s3, s4, s5, _, _⟩ :=
      up_scan_spec env (List.range e.cpu_online_map.length) e tr
    have hstray := up_scan_stray env (List.range e.cpu_online_map.length) e tr
    have hall := up_scan_all_ok env hok (List.range e.cpu_online_map.length) e tr
      (fun c hc => List.mem_range.mp hc)
    rcases hres : up_scan env (List.range e.cpu_online_map.length) e tr with ⟨e2, tr2, b⟩
    rw [hres] at s3 s4 s5 hstray hall
    simp only at s3 s4 s5 hstray hall
    simp only [up_phase, hres] at h
    cases b with
    | true =>
      simp only at h
      obtain ⟨k1, k2, k3, k4, k5⟩ := ih e2 tr2 (n + 1) e1 tr1 n1 h
      refine ⟨by rw [k1, s4], by rw [k2, s5], by rw [k3, s3], ?_, k5⟩
      intro c hbit
      rw [k4 c (by rw [s4]; exact hbit), hstray c hbit]
    | false =>
      simp only [Option.some.injEq, Prod.mk.injEq] at h
      obtain ⟨he, _, _⟩ := h
      subst he
      obtain ⟨a1, a2⟩ := hall rfl
      subst a1
      refine ⟨rfl, rfl, rfl, fun _ _ => rfl, ?_⟩
      intro c hlt hbit
      exact a2 c (List.mem_range.mpr hlt) hbit

theorem stray_online_up_phase (e e1 : Engine)
    (hm : e1.msm_mpd.algo_cpu_mask = e.msm_mpd.algo_cpu_mask)
    (hlen : e1.cpu_online_map.length = e.cpu_online_map.length)
    (hstray : ∀ c, e.msm_mpd.algo_cpu_mask.testBit c = false →
      cpu_online e1 c = cpu_online e c) :
    stray_online e1 = stray_online e := by
  unfold stray_online
  rw [hlen, hm]
  apply List.filter_congr
  intro c _
  cases hb : e.msm_mpd.algo_cpu_mask.testBit c with
  | true => simp
  | false => simp [hstray c hb]

theorem mem_stray_online (e : Engine) (c : Nat) :
    c ∈ stray_online e ↔
      c < e.cpu_online_map.length ∧ e.msm_mpd.algo_cpu_mask.testBit c = false ∧
        cpu_online e c = true := by
  unfold stray_online
  simp [List.mem_filter, List.mem_range]

/-- A pass in which every `cpu_up` and the `cpu_down` succeed, started after
the debounce interval with at most one online core outside the mask, and
which does not die in `BUG_ON`, reaches the target state. -/
theorem do_hotplug_reaches_target (e : Engine) (env : hp_env) (r : hp_result)
    (hok : ∀ k, (env.up k).ok = true) (hdown : env.down.ok = true)
    (hdeb : env.t_check - e.last_down_time > 100 * (NSEC_PER_MSEC : Int))
    (hone : (stray_online e).length ≤ 1)
    (hr : msm_mpd_do_hotplug e env = some r) (hbug : r.bug = false) :
    settled r.eng := by
  obtain ⟨e1, ups, n1, hup, hcase⟩ := do_hotplug_cases e env r hr
  obtain ⟨k1, k2, k3, k4, k5⟩ := up_phase_all_ok env hok _ _ _ _ e1 ups n1 hup
  have hm : e1.msm_mpd.algo_cpu_mask = e.msm_mpd.algo_cpu_mask := by rw [k1]
  have hlen : e1.cpu_online_map.length = e.cpu_online_map.length := k2
  have hldt : e1.last_down_time = e.last_down_time := k3
  have hs1 : stray_online e1 = stray_online e := stray_online_up_phase e e1 hm hlen k4
  have hhead : down_candidate e1 (List.range e1.cpu_online_map.length)
      = (stray_online e1).head? := down_candidate_head e1 _
  rcases hcase with ⟨hnone, h⟩ | ⟨cpu, _, _, _, h⟩ | ⟨cpu, e2, _, hcand, hbd, h⟩
  · have hnil : stray_online e1 = [] := by
      rcases hnone with hnd | hnc
      · rw [hldt] at hnd
        exact absurd hdeb hnd
      · rw [hhead] at hnc
        exact List.head?_eq_none_iff.mp hnc
    rw [h]
    intro c hc
    show e1.msm_mpd.algo_cpu_mask.testBit c = cpu_online e1 c
    cases hb : e1.msm_mpd.algo_cpu_mask.testBit c with
    | true => exact (k5 c hc hb).symm
    | false =>
      have hnot : c ∉ stray_online e1 := by rw [hnil]; simp
      rw [mem_stray_online] at hnot
      cases hon : cpu_online e1 c with
      | false => rfl
      | true => exact absurd ⟨hc, hb, hon⟩ hnot
  · rw [h] at hbug
    cases hbug
  · have hcs := down_candidate_some e1 _ cpu hcand
    have hsingle : stray_online e1 = [cpu] := by
      rw [hhead] at hcand
      have hl : (stray_online e1).length ≤ 1 := by rw [hs1]; exact hone
      cases hst : stray_online e1 with
      | nil => rw [hst] at hcand; cases hcand
      | cons a t =>
        rw [hst] at hcand hl
        simp at hcand hl
        rw [hcand, hl]
    have hcpu_lt : cpu < e1.cpu_online_map.length :=
      ((mem_stray_online e1 cpu).mp (by rw [hsingle]; simp)).1
    have he2 : e2.cpu_online_map = e1.cpu_online_map.set cpu false ∧
        e2.msm_mpd = e1.msm_mpd := by
      unfold bring_down_cpu at hbd
      by_cases h0 : cpu = 0
      · rw [if_pos h0] at hbd
        cases hbd
      · rw [if_neg h0] at hbd
        simp only [hdown, if_true, Option.some.injEq] at hbd
        rw [← hbd]
        exact ⟨rfl, rfl⟩
    rw [h]
    intro c hc
    have hc1 : c < e1.cpu_online_map.length := by
      have : c < e2.cpu_online_map.length := hc
      rw [he2.1] at this
      simpa using this
    show e2.msm_mpd.algo_cpu_mask.testBit c = e2.cpu_online_map.getD c false
    rw [he2.1, he2.2]
    by_cases hcc : cpu = c
    · subst hcc
      rw [getD_set_self _ _ _ hcpu_lt]
      exact hcs.1
    · rw [getD_set_ne _ _ _ _ hcc]
      cases hb : e1.msm_mpd.algo_cpu_mask.testBit c with
      | true => exact (k5 c hc1 hb).symm
      | false =>
        have hnot : c ∉ stray_online e1 := by
          rw [hsingle]
          simp
          exact fun h => hcc h.symm
        rw [mem_stray_online] at hnot
        cases hon : e1.cpu_online_map.getD c false with
        | false => rfl
        | true => exact absurd ⟨hc1, hb, hon⟩ hnot

theorem settled_republish (e : Engine) (event : msm_dcvs_scm_event) (nr : Int)
    (h : settled e) : settled (republish e event nr) := by
  unfold republish msm_mpd_update_scm
  simp only [ne_eq, not_true_eq_false, if_false]
  split <;> exact h

/-- C16 (amended). Let a reconciliation pass run with every `cpu_up` and the
`cpu_down` succeeding, started after the debounce interval with at most one
online core outside the target mask, and not dying in `BUG_ON`. If the same
target state is then published again, the second pass makes no transition
attempt (no `cpu_up`, no `cpu_down`), whatever the kernel would answer, and
leaves the online map and the latency counters as the first pass left
them. -/
theorem republish_pass_noop (e : Engine) (env1 env2 : hp_env) (r1 : hp_result)
    (event : msm_dcvs_scm_event) (nr : Int)
    (hok : ∀ k, (env1.up k).ok = true) (hdown : env1.down.ok = true)
    (hdeb : env1.t_check - e.last_down_time > 100 * (NSEC_PER_MSEC : Int))
    (hone : (stray_online e).length ≤ 1)
    (hr : msm_mpd_do_hotplug e env1 = some r1) (hbug : r1.bug = false) :
    (republish r1.eng event nr).msm_mpd.algo_cpu_mask = r1.eng.msm_mpd.algo_cpu_mask ∧
    (republish r1.eng event nr).msm_mpd.slack_us = r1.eng.msm_mpd.slack_us ∧
    ∃ r2 : hp_result,
      msm_mpd_do_hotplug (republish r1.eng event nr) env2 = some r2 ∧
      r2.trace = [] ∧ r2.bug = false ∧
      r2.eng.cpu_online_map = r1.eng.cpu_online_map ∧
      r2.eng.hp_latencies = r1.eng.hp_latencies := by
  have hs := settled_republish r1.eng event nr
    (do_hotplug_reaches_target e env1 r1 hok hdown hdeb hone hr hbug)
  have hpub : (republish r1.eng event nr).msm_mpd.algo_cpu_mask = r1.eng.msm_mpd.algo_cpu_mask ∧
      (republish r1.eng event nr).msm_mpd.slack_us = r1.eng.msm_mpd.slack_us ∧
      (republish r1.eng event nr).cpu_online_map = r1.eng.cpu_online_map ∧
      (republish r1.eng event nr).hp_latencies = r1.eng.hp_latencies := by
    unfold republish msm_mpd_update_scm
    simp only [ne_eq, not_true_eq_false, if_false]
    split <;> exact ⟨rfl, rfl, rfl, rfl⟩
  refine ⟨hpub.1, hpub.2.1, _, do_hotplug_settled _ env2 hs, rfl, rfl, hpub.2.2.1, hpub.2.2.2⟩

/-- Witness for C16 (amended): mask `0b0011` with core 1 offline and core 2
online; the first pass brings core 1 online and takes core 2 offline. -/
theorem republish_pass_noop_witness :
    ∃ r2 : hp_result,
      msm_mpd_do_hotplug
        (republish
          ((msm_mpd_do_hotplug (engine_with 3 [true, false, true])
            (env_all_ok 3 1000000000 1000000005)).getD ⟨boot_engine 0, [], 0, false⟩).eng
          msm_dcvs_scm_event.MSM_DCVS_SCM_RUNQ_UPDATE 130)
        (env_all_ok 3 2000000000 2000000005) = some r2 ∧
      r2.trace = [] ∧ r2.bug = false ∧
      r2.eng.cpu_online_map =
        ((msm_mpd_do_hotplug (engine_with 3 [true, false, true])
          (env_all_ok 3 1000000000 1000000005)).getD
            ⟨boot_engine 0, [], 0, false⟩).eng.cpu_online_map ∧
      r2.eng.hp_latencies =
        ((msm_mpd_do_hotplug (engine_with 3 [true, false, true])
          (env_all_ok 3 1000000000 1000000005)).getD
            ⟨boot_engine 0, [], 0, false⟩).eng.hp_latencies :=
  (republish_pass_noop (engine_with 3 [true, false, true])
    (env_all_ok 3 1000000000 1000000005) (env_all_ok 3 2000000000 2000000005)
    ((msm_mpd_do_hotplug (engine_with 3 [true, false, true])
      (env_all_ok 3 1000000000 1000000005)).getD ⟨boot_engine 0, [], 0, false⟩)
    msm_dcvs_scm_event.MSM_DCVS_SCM_RUNQ_UPDATE 130
    (fun _ => rfl) rfl (by decide) (by decide) (by decide) (by decide)).2.2

/-- C16 (the claim as stated fails). Mask `0b0001` published with four cores
online: the first pass takes core 1 offline; the same target state is
published again and the second pass, one second later, takes core 2
offline. -/
theorem second_pass_takes_another_core :
    (msm_mpd_do_hotplug (engine_with 1 [true, true, true, true])
        (env_all_ok 3 1000000000 1000000005)).map (fun r => (r.trace, r.eng.cpu_online_map))
      = some ([hp_attempt.down 1], [true, false, true, true]) ∧
    (republish
        ((msm_mpd_do_hotplug (engine_with 1 [true, true, true, true])
          (env_all_ok 3 1000000000 1000000005)).getD ⟨boot_engine 0, [], 0, false⟩).eng
        msm_dcvs_scm_event.MSM_DCVS_SCM_RUNQ_UPDATE 30).msm_mpd.algo_cpu_mask = 1 ∧
    (msm_mpd_do_hotplug
        (republish
          ((msm_mpd_do_hotplug (engine_with 1 [true, true, true, true])
            (env_all_ok 3 1000000000 1000000005)).getD ⟨boot_engine 0, [], 0, false⟩).eng
          msm_dcvs_scm_event.MSM_DCVS_SCM_RUNQ_UPDATE 30)
        (env_all_ok 3 2000000000 2000000005)).map (fun r => (r.trace, r.eng.cpu_online_map))
      = some ([hp_attempt.down 2], [true, false, false, true]) := by
  decide

/-! ## Latency counters and configuration surface: the claims -/

theorem wrap_s32_of_range (x : Int) (h : in_int_range x) : wrap_s32 x = x := by
  unfold in_int_range at h
  unfold wrap_s32 to_s32 to_u32
  split <;> omega

/-- C18 (amended). A successful `bring_up_cpu` that took `d` milliseconds adds
1 to `hp_up_count` and `d` to `hp_up_ms` in 32-bit `int` arithmetic (the
exact sums whenever they are representable as an `int`, wrapped modulo `2^32`
otherwise), sets `hp_up_max_ms` to the maximum of its previous value and `d`,
and leaves the three down counters unchanged; a successful `bring_down_cpu`
of a core other than 0 does the same to the three down counters and leaves
the up counters unchanged; a failed `cpu_up` or `cpu_down` leaves the whole
engine, so all six counters, unchanged; `bring_down_cpu` of core 0 stops in
`BUG_ON` before any accounting. -/
theorem latency_accounting (e : Engine) (cpu : Nat) (d : Int) :
    (bring_up_cpu e cpu ⟨true, d⟩).hp_latencies =
      { e.hp_latencies with
        hp_up_count := wrap_s32 (e.hp_latencies.hp_up_count + 1)
        hp_up_ms := wrap_s32 (e.hp_latencies.hp_up_ms + d)
        hp_up_max_ms := max e.hp_latencies.hp_up_max_ms d } ∧
    (in_int_range (e.hp_latencies.hp_up_count + 1) →
      (bring_up_cpu e cpu ⟨true, d⟩).hp_latencies.hp_up_count
        = e.hp_latencies.hp_up_count + 1) ∧
    (in_int_range (e.hp_latencies.hp_up_ms + d) →
      (bring_up_cpu e cpu ⟨true, d⟩).hp_latencies.hp_up_ms = e.hp_latencies.hp_up_ms + d) ∧
    bring_up_cpu e cpu ⟨false, d⟩ = e ∧
    (cpu ≠ 0 →
      (bring_down_cpu e cpu ⟨true, d⟩).map (fun x => x.hp_latencies) =
        some { e.hp_latencies with
          hp_dw_count := wrap_s32 (e.hp_latencies.hp_dw_count + 1)
          hp_dw_ms := wrap_s32 (e.hp_latencies.hp_dw_ms + d)
          hp_dw_max_ms := max e.hp_latencies.hp_dw_max_ms d } ∧
      (in_int_range (e.hp_latencies.hp_dw_count + 1) →
        (bring_down_cpu e cpu ⟨true, d⟩).map (fun x => x.hp_latencies.hp_dw_count)
          = some (e.hp_latencies.hp_dw_count + 1)) ∧
      (in_int_range (e.hp_latencies.hp_dw_ms + d) →
        (bring_down_cpu e cpu ⟨true, d⟩).map (fun x => x.hp_latencies.hp_dw_ms)
          = some (e.hp_latencies.hp_dw_ms + d)) ∧
      bring_down_cpu e cpu ⟨false, d⟩ = some e) ∧
    (∀ o : cpu_outcome, bring_down_cpu e 0 o = none) := by
  have hmax : ∀ a : Int, (if d > a then d else a) = max a d := by
    intro a
    rw [max_def]
    split <;> split <;> omega
  have hup : (bring_up_cpu e cpu ⟨true, d⟩).hp_latencies =
      { e.hp_latencies with
        hp_up_count := wrap_s32 (e.hp_latencies.hp_up_count + 1)
        hp_up_ms := wrap_s32 (e.hp_latencies.hp_up_ms + d)
        hp_up_max_ms := max e.hp_latencies.hp_up_max_ms d } := by
    unfold bring_up_cpu
    simp only [if_true]
    rw [hmax]
  refine ⟨hup, ?_, ?_, ?_, ?_, ?_⟩
  · intro h
    rw [hup]
    exact wrap_s32_of_range _ h
  · intro h
    rw [hup]
    exact wrap_s32_of_range _ h
  · unfold bring_up_cpu
    simp
  · intro hcpu
    have hdw : bring_down_cpu e cpu ⟨true, d⟩ =
        some { e with
          cpu_online_map := e.cpu_online_map.set cpu false
          hp_latencies := { e.hp_latencies with
            hp_dw_max_ms := max e.hp_latencies.hp_dw_max_ms d
            hp_dw_ms := wrap_s32 (e.hp_latencies.hp_dw_ms + d)
            hp_dw_count := wrap_s32 (e.hp_latencies.hp_dw_count + 1) } } := by
      unfold bring_down_cpu
      rw [if_neg hcpu]
      simp only [if_true]
      rw [hmax]
    refine ⟨?_, ?_, ?_, ?_⟩
    · rw [hdw]
      rfl
    · intro h
      rw [hdw]
      simp only [Option.map_some', Option.some.injEq]
      exact wrap_s32_of_range _ h
    · intro h
      rw [hdw]
      simp only [Option.map_some', Option.some.injEq]
      exact wrap_s32_of_range _ h
    · unfold bring_down_cpu
      rw [if_neg hcpu]
      simp
  · intro o
    unfold bring_down_cpu
    rw [if_pos rfl]

/-- Witness for C18 (amended): the second hotplug of a boot, 7 ms after a
first one of 3 ms, counts from 1 to 2. -/
theorem latency_accounting_witness :
    (bring_up_cpu { boot_engine 4 with hp_latencies := ⟨3, 3, 1, 3, 3, 1⟩ } 2
        ⟨true, 7⟩).hp_latencies.hp_up_count = 1 + 1 :=
  (latency_accounting { boot_engine 4 with hp_latencies := ⟨3, 3, 1, 3, 3, 1⟩ } 2 7).2.1
    (by decide)

/-- C18 (the claim as stated fails). The text for 2147483647 is written to
the `hp_up_count` attribute, which stores it; the next successful
`bring_up_cpu` does not increase the counter by 1: the 32-bit addition wraps
and `hp_up_count` becomes -2147483648. -/
theorem latency_counter_wraps :
    (msm_mpd_attr_hp_store hp_attr.hp_up_count (engine_with 3 [true, false])
        (some 2147483647) 11 0).eng.hp_latencies.hp_up_count = 2147483647 ∧
    (bring_up_cpu
        (msm_mpd_attr_hp_store hp_attr.hp_up_count (engine_with 3 [true, false])
          (some 2147483647) 11 0).eng 1 ⟨true, 3⟩).hp_latencies.hp_up_count
      = -2147483648 ∧
    (-2147483648 : Int) ≠ 2147483647 + 1 := by
  decide

theorem hp_attr_get_set (a : hp_attr) (l : hp_latency) (v : Int) :
    a.get (a.set l v) = v ∧ (∀ b : hp_attr, b ≠ a → b.get (a.set l v) = b.get l) ∧
    a.set (a.set l v) (a.get l) = l := by
  refine ⟨?_, ?_, ?_⟩
  · cases a <;> rfl
  · intro b hb
    cases a <;> cases b <;> first | rfl | exact absurd rfl hb
  · cases a <;> rfl

/-- C19 (amended). The store operation of a latency attribute writes the
counter: given a text that `kstrtouint` accepts, with
`msm_mpd_scm_set_algo_params` succeeding, it sets that one counter to the
written value (converted to `int`) and leaves the other five counters and the
rest of the engine unchanged; when the text is rejected, or when
`msm_mpd_scm_set_algo_params` fails (the old value is put back), all six
counters are unchanged. -/
theorem hp_store_effect (a : hp_attr) (e : Engine) (parsed : Option Nat) (count : Nat)
    (scm_ret : Int) (hr : in_int_range (a.get e.hp_latencies)) :
    (parsed = none → (msm_mpd_attr_hp_store a e parsed count scm_ret).eng = e) ∧
    (scm_ret ≠ 0 → (msm_mpd_attr_hp_store a e parsed count scm_ret).eng = e) ∧
    (∀ val : Nat, parsed = some val → scm_ret = 0 →
      (msm_mpd_attr_hp_store a e parsed count scm_ret).eng =
        { e with hp_latencies := a.set e.hp_latencies (to_s32 val) } ∧
      a.get (msm_mpd_attr_hp_store a e parsed count scm_ret).eng.hp_latencies = to_s32 val ∧
      (val < 2147483648 →
        a.get (msm_mpd_attr_hp_store a e parsed count scm_ret).eng.hp_latencies = (val : Int)) ∧
      (∀ b : hp_attr, b ≠ a →
        b.get (msm_mpd_attr_hp_store a e parsed count scm_ret).eng.hp_latencies
          = b.get e.hp_latencies)) := by
  have hround : to_s32 (to_u32 (a.get e.hp_latencies)) = a.get e.hp_latencies :=
    wrap_s32_of_range _ hr
  refine ⟨?_, ?_, ?_⟩
  · intro h
    rw [h]
    rfl
  · intro h
    cases parsed with
    | none => rfl
    | some val =>
      unfold msm_mpd_attr_hp_store
      simp only [h, ne_eq, not_false_eq_true, if_true]
      rw [hround, (hp_attr_get_set a e.hp_latencies (to_s32 val)).2.2]
  · intro val hp h0
    have hstore : (msm_mpd_attr_hp_store a e parsed count scm_ret).eng =
        { e with hp_latencies := a.set e.hp_latencies (to_s32 val) } := by
      rw [hp]
      unfold msm_mpd_attr_hp_store
      simp [h0]
    rw [hstore]
    refine ⟨rfl, (hp_attr_get_set a e.hp_latencies (to_s32 val)).1, ?_,
      (hp_attr_get_set a e.hp_latencies (to_s32 val)).2.1⟩
    intro hv
    show a.get (a.set e.hp_latencies (to_s32 val)) = (val : Int)
    rw [(hp_attr_get_set a e.hp_latencies (to_s32 val)).1, to_s32_of_lt _ hv]

/-- Witness for C19 (amended): writing 5 to `hp_up_count` after boot. -/
theorem hp_store_effect_witness :
    (msm_mpd_attr_hp_store hp_attr.hp_up_count (boot_engine 4) (some 5) 2 0).eng =
      { boot_engine 4 with
        hp_latencies := hp_attr.hp_up_count.set (boot_engine 4).hp_latencies (to_s32 5) } :=
  ((hp_store_effect hp_attr.hp_up_count (boot_engine 4) (some 5) 2 0
      (by decide)).2.2 5 rfl rfl).1

/-- C19 (the claim as stated fails). After two successful hotplugs
(`hp_up_count = 2`), writing the text for 5 to the `hp_up_count` attribute,
with `msm_mpd_scm_set_algo_params` succeeding, returns `count` and leaves
`hp_up_count = 5`: the store operation changed a latency counter. -/
theorem hp_store_changes_counter :
    (msm_mpd_attr_hp_store hp_attr.hp_up_count
        { boot_engine 4 with hp_latencies := ⟨7, 10, 2, 3, 3, 1⟩ } (some 5) 2 0).eng.hp_latencies
      = ⟨7, 10, 5, 3, 3, 1⟩ ∧
    (msm_mpd_attr_hp_store hp_attr.hp_up_count
        { boot_engine 4 with hp_latencies := ⟨7, 10, 2, 3, 3, 1⟩ } (some 5) 2 0).ret = 2 := by
  decide

theorem set_rq_avg_divide_run_ne_zero (vals : List Nat) :
    ∀ e : Engine, e.msm_mpd.rq_avg_divide ≠ 0 →
      (set_rq_avg_divide_run e vals).msm_mpd.rq_avg_divide ≠ 0 := by
  induction vals with
  | nil => intro e h; exact h
  | cons v rest ih =>
    intro e h
    unfold set_rq_avg_divide_run
    apply ih
    unfold msm_mpd_set_rq_avg_divide
    split
    · exact h
    · rename_i hv
      exact hv

/-- C20. `msm_mpd_set_rq_avg_divide(0)` returns `-EINVAL` and changes
nothing; for every non-zero `val` it stores `val` in `rq_avg_divide` and
returns 0. Hence, starting from the default divisor 25, after every sequence
of setter calls `rq_avg_divide` is non-zero and `ok_to_update_tz` does not
divide by zero. -/
theorem set_rq_avg_divide_spec (e : Engine) (vals : List Nat)
    (h25 : e.msm_mpd.rq_avg_divide = 25) :
    (∀ x : Engine, msm_mpd_set_rq_avg_divide x 0 = (x, -EINVAL)) ∧
    (∀ (x : Engine) (val : Nat), val ≠ 0 →
      msm_mpd_set_rq_avg_divide x val =
        ({ x with msm_mpd := { x.msm_mpd with rq_avg_divide := val } }, 0)) ∧
    (set_rq_avg_divide_run e vals).msm_mpd.rq_avg_divide ≠ 0 ∧
    (∀ nr last_nr : Int,
      ∃ b : Bool, ok_to_update_tz (set_rq_avg_divide_run e vals) nr last_nr = some b) := by
  have hne : (set_rq_avg_divide_run e vals).msm_mpd.rq_avg_divide ≠ 0 :=
    set_rq_avg_divide_run_ne_zero vals e (by rw [h25]; decide)
  refine ⟨?_, ?_, hne, ?_⟩
  · intro x
    unfold msm_mpd_set_rq_avg_divide
    rw [if_pos rfl]
  · intro x val hv
    unfold msm_mpd_set_rq_avg_divide
    rw [if_neg hv]
  · intro nr last_nr
    unfold ok_to_update_tz
    rw [if_neg hne]
    exact ⟨_, rfl⟩

/-- Witness for C20: after boot, the writes 0, 7, 0 leave the divisor 7. -/
theorem set_rq_avg_divide_spec_witness :
    (set_rq_avg_divide_run (boot_engine 4) [0, 7, 0]).msm_mpd.rq_avg_divide ≠ 0 :=
  (set_rq_avg_divide_spec (boot_engine 4) [0, 7, 0] rfl).2.2.1

/-! ## Hotplug worker: number of restarts -/

/-- A scan of the up phase that ends without `goto restart` leaves the online
map as it was; one that ends with `goto restart` has brought exactly one core
online, a core of the mask that was offline. -/
theorem up_scan_map (env : hp_env) (cpus : List Nat) :
    ∀ (e : Engine) (tr : List hp_attempt),
      ((up_scan env cpus e tr).2.2 = false →
        (up_scan env cpus e tr).1.cpu_online_map = e.cpu_online_map) ∧
      ((up_scan env cpus e tr).2.2 = true →
        ∃ cpu : Nat, e.msm_mpd.algo_cpu_mask.testBit cpu = true ∧
          e.cpu_online_map.getD cpu false = false ∧
          (e.cpu_online_map.set cpu true).getD cpu false = true ∧
          (up_scan env cpus e tr).1.cpu_online_map = e.cpu_online_map.set cpu true) := by
  induction cpus with
  | nil =>
    intro e tr
    simp [up_scan]
  | cons cpu rest ih =>
    intro e tr
    by_cases hc : (e.msm_mpd.algo_cpu_mask.testBit cpu && !cpu_online e cpu) = true
    · have hbit : e.msm_mpd.algo_cpu_mask.testBit cpu = true := by
        simp at hc
        exact hc.1
      have hoff : cpu_online e cpu = false := by
        simp at hc
        exact hc.2
      obtain ⟨_, hsame, _⟩ := bring_up_cpu_count e cpu (env.up tr.length) hoff
      by_cases hon : cpu_online (bring_up_cpu e cpu (env.up tr.length)) cpu = true
      · simp only [up_scan, hc, hon, if_true]
        refine ⟨fun h => by simp at h, fun _ => ⟨cpu, hbit, hoff, ?_, ?_⟩⟩
        · rcases bring_up_cpu_map e cpu (env.up tr.length) with h | h
          · unfold cpu_online at hon hoff
            rw [h, hoff] at hon
            cases hon
          · unfold cpu_online at hon
            rw [h] at hon
            exact hon
        · rcases bring_up_cpu_map e cpu (env.up tr.length) with h | h
          · unfold cpu_online at hon hoff
            rw [h, hoff] at hon
            cases hon
          · exact h
      · have hon2 : cpu_online (bring_up_cpu e cpu (env.up tr.length)) cpu = false := by
          simpa using hon
        have hmap := hsame hon2
        have hmsm := bring_up_cpu_msm_mpd e cpu (env.up tr.length)
        obtain ⟨i1, i2⟩ := ih (bring_up_cpu e cpu (env.up tr.length)) (tr ++ [hp_attempt.up cpu])
        simp only [up_scan, hc, hon2, if_true, Bool.false_eq_true, if_false]
        rw [hmap] at i1 i2
        rw [hmsm] at i2
        exact ⟨i1, i2⟩
    · simp only [up_scan, hc]
      exact ih e tr

theorem length_filter_ne (l : List Nat) (a : Nat) (hnd : l.Nodup) (hmem : a ∈ l) :
    (l.filter (fun c => c != a)).length + 1 = l.length := by
  induction l with
  | nil => simp at hmem
  | cons b t ih =>
    have hnd2 := List.nodup_cons.mp hnd
    by_cases hba : b = a
    · subst hba
      have hall : t.filter (fun c => c != b) = t := by
        rw [List.filter_eq_self]
        intro c hc
        have : c ≠ b := fun h => hnd2.1 (h ▸ hc)
        simpa using this
      simp [List.filter_cons, hall]
    · have hat : a ∈ t := by
        rcases List.mem_cons.mp hmem with h | h
        · exact absurd h.symm hba
        · exact h
      have := ih hnd2.2 hat
      simp [List.filter_cons, hba]
      omega

/-- Bringing online one offline core of the mask shortens the list of cores
still to bring online by one. -/
theorem pending_set_true (m : Nat) (l : List Bool) (cpu : Nat)
    (hbit : m.testBit cpu = true) (hoff : l.getD cpu false = false)
    (hon : (l.set cpu true).getD cpu false = true) :
    ((List.range (l.set cpu true).length).filter
        (fun c => m.testBit c && !(l.set cpu true).getD c false)).length + 1
      = ((List.range l.length).filter (fun c => m.testBit c && !l.getD c false)).length := by
  have hlt : cpu < l.length := by
    by_contra hge
    have hnoop : l.set cpu true = l := List.set_eq_of_length_le (by omega)
    rw [hnoop, hoff] at hon
    cases hon
  have hmem : cpu ∈ (List.range l.length).filter (fun c => m.testBit c && !l.getD c false) := by
    rw [List.mem_filter]
    exact ⟨List.mem_range.mpr hlt, by rw [hbit, hoff]; rfl⟩
  have hnd : ((List.range l.length).filter (fun c => m.testBit c && !l.getD c false)).Nodup :=
    List.Nodup.filter _ (List.nodup_range _)
  have heq : (List.range (l.set cpu true).length).filter
        (fun c => m.testBit c && !(l.set cpu true).getD c false)
      = ((List.range l.length).filter (fun c => m.testBit c && !l.getD c false)).filter
          (fun c => c != cpu) := by
    rw [List.length_set, List.filter_filter]
    apply List.filter_congr
    intro c _
    by_cases hcc : cpu = c
    · subst hcc
      rw [hon]
      simp
    · rw [getD_set_ne _ _ _ _ hcc]
      have : (c != cpu) = true := by simpa using fun h => hcc h.symm
      rw [this]
      simp
  rw [heq]
  exact length_filter_ne _ cpu hnd hmem

/-- Changing the online state of a core outside the mask does not change the
list of cores still to bring online. -/
theorem pending_set_stray (m : Nat) (l : List Bool) (cpu : Nat) (v : Bool)
    (hbit : m.testBit cpu = false) :
    (List.range (l.set cpu v).length).filter
        (fun c => m.testBit c && !(l.set cpu v).getD c false)
      = (List.range l.length).filter (fun c => m.testBit c && !l.getD c false) := by
  rw [List.length_set]
  apply List.filter_congr
  intro c _
  by_cases hcc : cpu = c
  · subst hcc
    simp [hbit]
  · rw [getD_set_ne _ _ _ _ hcc]

/-- Every `goto restart` of the up phase removes one core from the list of
cores still to bring online, and nothing else changes that list. -/
theorem up_phase_pending (env : hp_env) :
    ∀ (fuel : Nat) (e : Engine) (tr : List hp_attempt) (n : Nat)
      (e1 : Engine) (tr1 : List hp_attempt) (n1 : Nat),
      up_phase env fuel e tr n = some (e1, tr1, n1) →
      e1.msm_mpd = e.msm_mpd ∧
      n1 + (pending_up e1).length = n + (pending_up e).length := by
  intro fuel
  induction fuel with
  | zero =>
    intro e tr n e1 tr1 n1 h
    simp [up_phase] at h
  | succ fuel ih =>
    intro e tr n e1 tr1 n1 h
    obtain ⟨_, _, _, _, s4, _, _, _⟩ :=
      up_scan_spec env (List.range e.cpu_online_map.length) e tr
    obtain ⟨m1, m2⟩ := up_scan_map env (List.range e.cpu_online_map.length) e tr
    rcases hres : up_scan env (List.range e.cpu_online_map.length) e tr with ⟨e2, tr2, b⟩
    rw [hres] at s4 m1 m2
    simp only at s4 m1 m2
    simp only [up_phase, hres] at h
    cases b with
    | true =>
      simp only at h
      obtain ⟨k1, k2⟩ := ih e2 tr2 (n + 1) e1 tr1 n1 h
      obtain ⟨cpu, hbit, hoff, hon, hmap⟩ := m2 rfl
      have hp : (pending_up e2).length + 1 = (pending_up e).length := by
        unfold pending_up cpu_online
        rw [hmap, s4]
        exact pending_set_true _ _ cpu hbit hoff hon
      refine ⟨by rw [k1, s4], ?_⟩
      omega
    | false =>
      simp only [Option.some.injEq, Prod.mk.injEq] at h
      obtain ⟨he, _, hn⟩ := h
      subst he
      subst hn
      have hmap := m1 rfl
      refine ⟨s4, ?_⟩
      unfold pending_up cpu_online
      rw [hmap, s4]

/-- C24. A reconciliation pass always finishes, and the number of times its
up phase jumps to `restart` is at most the number of cores of the target mask
that were offline when the pass started: it is exactly the number of those
cores that have come online, since every restart follows one more core of the
mask coming online. The mask is fixed during the pass and no core goes
offline during the up phase; the pattern of `cpu_up` successes and failures
is arbitrary. -/
theorem up_phase_restarts_bounded (e : Engine) (env : hp_env) :
    ∃ r : hp_result,
      msm_mpd_do_hotplug e env = some r ∧
      r.restarts ≤ (pending_up e).length ∧
      r.restarts + (pending_up r.eng).length = (pending_up e).length := by
  obtain ⟨r, _, hr, _, _⟩ := do_hotplug_shape e env
  obtain ⟨e1, ups, n1, hup, hcase⟩ := do_hotplug_cases e env r hr
  obtain ⟨k1, k2⟩ := up_phase_pending env _ _ _ _ e1 ups n1 hup
  have k2 : n1 + (pending_up e1).length = (pending_up e).length := by
    have h0 : pending_up
        { e with msm_mpd := { e.msm_mpd with hpupdate := HPUPDATE_IN_PROGRESS } }
        = pending_up e := rfl
    rw [h0] at k2
    omega
  have hfinal : r.restarts + (pending_up r.eng).length = (pending_up e).length := by
    rcases hcase with ⟨_, h⟩ | ⟨cpu, _, _, _, h⟩ | ⟨cpu, e2, _, hcand, hbd, h⟩
    · rw [h]
      exact k2
    · rw [h]
      exact k2
    · rw [h]
      have hcs := down_candidate_some e1 _ cpu hcand
      have he2 : e2.msm_mpd = e1.msm_mpd ∧
          (e2.cpu_online_map = e1.cpu_online_map ∨
           e2.cpu_online_map = e1.cpu_online_map.set cpu false) := by
        unfold bring_down_cpu at hbd
        by_cases h0 : cpu = 0
        · rw [if_pos h0] at hbd
          cases hbd
        · rw [if_neg h0] at hbd
          by_cases hok : env.down.ok = true
          · simp only [hok, if_true, Option.some.injEq] at hbd
            rw [← hbd]
            exact ⟨rfl, Or.inr rfl⟩
          · have hok2 : env.down.ok = false := by simpa using hok
            simp only [hok2, Bool.false_eq_true, if_false, Option.some.injEq] at hbd
            rw [← hbd]
            exact ⟨rfl, Or.inl rfl⟩
      have hpend : pending_up
          { e2 with
            last_down_time := env.t_after
            msm_mpd := { e2.msm_mpd with hpupdate := HPUPDATE_WAITING } }
          = pending_up e1 := by
        show (List.range e2.cpu_online_map.length).filter
            (fun c => e2.msm_mpd.algo_cpu_mask.testBit c && !e2.cpu_online_map.getD c false)
          = (List.range e1.cpu_online_map.length).filter
            (fun c => e1.msm_mpd.algo_cpu_mask.testBit c && !e1.cpu_online_map.getD c false)
        rw [he2.1]
        rcases he2.2 with hm | hm
        · rw [hm]
        · rw [hm]
          exact pending_set_stray _ _ cpu false hcs.1
      rw [hpend]
      exact k2
  exact ⟨r, hr, by omega, hfinal⟩

/-! ## Stores, enabling and the threshold-table variant: the claims -/

/-- C21 (amended). When the store operation for `rq_avg_divide` is given the
text `0`, the setter returns `-EINVAL` and the prior divisor is retained (the
whole engine is unchanged), but the rejection is not reported to the caller:
the store operation returns the success value `count`, exactly as it does
for an accepted non-zero value. -/
theorem rq_avg_divide_store_zero (e : Engine) (count : Nat) :
    (msm_mpd_set_rq_avg_divide e 0).2 = -EINVAL ∧
    msm_mpd_attr_rq_avg_divide_store e (some 0) count = ⟨e, (count : Int), false⟩ ∧
    (∀ val : Nat, val ≠ 0 →
      msm_mpd_attr_rq_avg_divide_store e (some val) count =
        ⟨{ e with msm_mpd := { e.msm_mpd with rq_avg_divide := val } }, (count : Int), false⟩) := by
  refine ⟨?_, ?_, ?_⟩
  · unfold msm_mpd_set_rq_avg_divide
    rw [if_pos rfl]
  · have h : msm_mpd_set_rq_avg_divide e 0 = (e, -EINVAL) := by
      unfold msm_mpd_set_rq_avg_divide
      rw [if_pos rfl]
    have hne : (-EINVAL : Int) ≠ 0 := by decide
    unfold msm_mpd_attr_rq_avg_divide_store
    simp only [h, hne, ne_eq, not_false_eq_true, if_true]
  · intro val hv
    have h : msm_mpd_set_rq_avg_divide e val =
        ({ e with msm_mpd := { e.msm_mpd with rq_avg_divide := val } }, 0) := by
      unfold msm_mpd_set_rq_avg_divide
      rw [if_neg hv]
    unfold msm_mpd_attr_rq_avg_divide_store
    simp only [h, ne_eq, not_true_eq_false, if_false]

/-- C21 (the claim as stated fails). After boot (divisor 25) the text `0`,
two characters with the newline, is written to `rq_avg_divide`: the setter
returns `-EINVAL`, the divisor stays 25, and the store operation returns 2,
the success value `count`, not an error indication. -/
theorem rq_avg_divide_store_reports_success :
    (msm_mpd_set_rq_avg_divide (boot_engine 4) 0).2 = -EINVAL ∧
    (msm_mpd_attr_rq_avg_divide_store (boot_engine 4) (some 0) 2).ret = 2 ∧
    (msm_mpd_attr_rq_avg_divide_store (boot_engine 4) (some 0) 2).eng.msm_mpd.rq_avg_divide
      = 25 := by
  decide

/-- C22 (amended). After `msm_mpd_set_enabled(0)` on an engine whose
`last_enable` is set, whatever the oracle answers to the disable event: the
sampler timers of the online cores are cancelled (those of offline cores are
left as they were), both worker threads have been stopped, the notifiers are
unregistered and `enabled` is 0; the slack timer is left as it was, armed if
it was armed. The call returns the oracle's return value. -/
theorem set_enabled_disable (c : mpd_control) (env : enable_env)
    (hle : c.last_enable ≠ 0) :
    (∀ cpu, cpu_online c.eng cpu = true →
      (msm_mpd_set_enabled c 0 env).1.poll_timer_armed cpu = false) ∧
    (∀ cpu, cpu_online c.eng cpu = false →
      (msm_mpd_set_enabled c 0 env).1.poll_timer_armed cpu = c.poll_timer_armed cpu) ∧
    (msm_mpd_set_enabled c 0 env).1.task_running = false ∧
    (msm_mpd_set_enabled c 0 env).1.hptask_running = false ∧
    (msm_mpd_set_enabled c 0 env).1.notifiers_registered = false ∧
    (msm_mpd_set_enabled c 0 env).1.eng.msm_mpd.enabled = 0 ∧
    (msm_mpd_set_enabled c 0 env).1.eng.slack_timer_armed = c.eng.slack_timer_armed ∧
    (msm_mpd_set_enabled c 0 env).2 = env.scm_ret := by
  unfold msm_mpd_set_enabled
  simp only [gt_iff_lt, lt_self_iff_false, if_false, hle, ne_eq, not_true_eq_false,
    false_and]
  by_cases hs : env.scm_ret = 0
  · simp only [hs, not_true_eq_false, if_false]
    refine ⟨fun cpu h => ?_, fun cpu h => ?_, by simp⟩
    · have h2 : cpu_online { c.eng with last_nr := 0 } cpu = true := h
      simp only [h2, if_true]
    · have h2 : cpu_online { c.eng with last_nr := 0 } cpu = false := h
      simp only [h2, Bool.false_eq_true, if_false]
  · simp only [hs, not_false_eq_true, if_true]
    refine ⟨fun cpu h => ?_, fun cpu h => ?_, by simp⟩
    · simp only [h, if_true]
    · simp only [h, Bool.false_eq_true, if_false]

/-- Witness for C22 (amended): disabling the enabled engine. -/
theorem set_enabled_disable_witness :
    (msm_mpd_set_enabled control_enabled 0 ⟨0, 0, 1000, true, true⟩).1.task_running = false :=
  (set_enabled_disable control_enabled ⟨0, 0, 1000, true, true⟩ (by decide)).2.2.1

/-- C22 (the claim as stated fails). The engine is enabled with the slack
timer armed; after `msm_mpd_set_enabled(0)` has completed successfully the
sampler timers are cancelled and both threads stopped, but the slack timer is
still armed. -/
theorem set_enabled_leaves_slack_timer :
    control_enabled.eng.msm_mpd.enabled = 1 ∧
    control_enabled.eng.slack_timer_armed = true ∧
    (msm_mpd_set_enabled control_enabled 0 ⟨0, 0, 1000, true, true⟩).2 = 0 ∧
    (msm_mpd_set_enabled control_enabled 0 ⟨0, 0, 1000, true, true⟩).1.eng.msm_mpd.enabled = 0 ∧
    (msm_mpd_set_enabled control_enabled 0 ⟨0, 0, 1000, true, true⟩).1.task_running = false ∧
    (msm_mpd_set_enabled control_enabled 0 ⟨0, 0, 1000, true, true⟩).1.eng.slack_timer_armed
      = true := by
  decide

/-- C23 (the code departs from the claim). Four cores online, core 0 clocked
at 384 MHz and the others at 1512 MHz: `get_slowest_cpu` returns 0, because
the rate of core 0 has become `slow_rate` before core 0 is skipped and no
other core is as slow; the `MSM_MPDEC_DOWN` branch then hands core 0 to
`cpu_down`. -/
theorem get_slowest_cpu_returns_core0 :
    [true, true, true, true].count true > 1 ∧
    get_slowest_cpu 4 [true, true, true, true] rates_core0_slow = 0 ∧
    mpdec_down_branch 4 [true, true, true, true] [true, true, true, true] rates_core0_slow
      = some 0 := by
  decide

/-- A call of `msm_mpd_set_enabled` whose normalised argument equals
`last_enable` returns 0 and changes nothing. -/
theorem set_enabled_same_noop (c : mpd_control) (enable : Nat) (env : enable_env)
    (h : c.last_enable = if enable > 0 then 1 else 0) :
    msm_mpd_set_enabled c enable env = (c, 0) := by
  unfold msm_mpd_set_enabled
  simp only [h, if_true]

/-- When `msm_mpd_scm_set_algo_params` fails on enabling, the call returns
that error and changes nothing. -/
theorem set_enabled_algo_params_failure (c : mpd_control) (enable : Nat) (env : enable_env)
    (hle : c.last_enable = 0) (hen : enable > 0) (hfail : env.algo_params_ret ≠ 0) :
    msm_mpd_set_enabled c enable env = (c, env.algo_params_ret) := by
  unfold msm_mpd_set_enabled
  simp [hle, hen, hfail]

/-- C25 (the code departs from the claim). The engine is disabled
(`last_enable = 0`, `enabled = 0`, no thread, no timer) and
`msm_mpd_set_enabled(1)` is called; `msm_mpd_scm_set_algo_params` succeeds but
the `MSM_DCVS_SCM_MPD_ENABLE` event fails with -5. The call returns -5 and
leaves `last_enable = 0`, yet it has started both worker threads, armed the
sampler timers, registered the notifiers and set `enabled = 1`. -/
theorem set_enabled_failure_not_atomic :
    control_disabled.last_enable = 0 ∧
    control_disabled.eng.msm_mpd.enabled = 0 ∧
    control_disabled.task_running = false ∧
    (msm_mpd_set_enabled control_disabled 1 ⟨0, -5, 1000, true, true⟩).2 = -5 ∧
    (msm_mpd_set_enabled control_disabled 1 ⟨0, -5, 1000, true, true⟩).1.last_enable = 0 ∧
    (msm_mpd_set_enabled control_disabled 1 ⟨0, -5, 1000, true, true⟩).1.task_running = true ∧
    (msm_mpd_set_enabled control_disabled 1 ⟨0, -5, 1000, true, true⟩).1.hptask_running = true ∧
    (msm_mpd_set_enabled control_disabled 1 ⟨0, -5, 1000, true, true⟩).1.poll_timer_armed 0
      = true ∧
    (msm_mpd_set_enabled control_disabled 1
      ⟨0, -5, 1000, true, true⟩).1.notifiers_registered = true ∧
    (msm_mpd_set_enabled control_disabled 1 ⟨0, -5, 1000, true, true⟩).1.eng.msm_mpd.enabled
      = 1 := by
  decide

end MsmMpd
